import Mathlib

/-!
Verification of the kiro-workers task-sync / download utility against its
natural-language specification.

The first part embeds `src/shared/utils/download.ts` (`downloadFile`,
`getPlatform`) as pure Lean functions over an explicit environment of
HTTP-attempt outcomes.  The second part models, from the specification, the
task parser and the issue-synchronization engine (whose implementation is not
part of the provided sources).
-/

namespace KiroWorkers

/-! ## String utilities: JavaScript `String.prototype.includes` -/

/-- `charsPrefix sub s` is true when `sub` is a prefix of `s` (character lists). -/
def charsPrefix : List Char → List Char → Bool
  | [], _ => true
  | _ :: _, [] => false
  | a :: as, b :: bs => a == b && charsPrefix as bs

/-- `charsContains sub s` is true when `sub` occurs contiguously inside `s`. -/
def charsContains (sub : List Char) : List Char → Bool
  | [] => charsPrefix sub []
  | c :: rest => charsPrefix sub (c :: rest) || charsContains sub rest

/-- Substring containment on strings, modelling JavaScript
`msg.includes(sub)` as used in the retry decision of `downloadFile`. -/
def strIncludes (s sub : String) : Bool :=
  charsContains sub.data s.data

theorem charsPrefix_append (sub l tail : List Char)
    (h : charsPrefix sub l = true) : charsPrefix sub (l ++ tail) = true := by
  induction sub generalizing l with
  | nil => simp [charsPrefix]
  | cons a as ih =>
    cases l with
    | nil => simp [charsPrefix] at h
    | cons b bs =>
      simp only [charsPrefix, Bool.and_eq_true] at h ⊢
      exact ⟨h.1, ih bs h.2⟩

theorem charsContains_append_left (sub l tail : List Char)
    (h : charsContains sub l = true) : charsContains sub (l ++ tail) = true := by
  induction l with
  | nil =>
    cases sub with
    | nil => cases tail <;> simp [charsContains, charsPrefix]
    | cons a as => simp [charsContains, charsPrefix] at h
  | cons c rest ih =>
    simp only [charsContains, Bool.or_eq_true] at h ⊢
    cases h with
    | inl hp => exact Or.inl (charsPrefix_append sub (c :: rest) tail hp)
    | inr hc => exact Or.inr (ih hc)

/-! ## Embedding of `downloadFile` (src/shared/utils/download.ts, lines 71-133)

The TypeScript function performs a sequence of download attempts.  The
environment of one run is captured as a function `Nat → HttpAttempt` giving,
for each 0-based attempt index, either the exception raised by `client.get`
or the response it returned (status code, status message, the rate-limit
reset signal carried in the response headers — which the source never reads —
and an optional streaming failure after a 200).  The embedding returns the
number of HTTP requests issued, the list of backoff delays slept (in order)
and the final outcome, one constructor per `throw`/`return` site of the
source. -/

/-- Outcome of one HTTP attempt inside the retry loop. -/
inductive HttpAttempt where
  /-- `client.get` threw with this error message (network-level failure). -/
  | getThrows (msg : String)
  /-- `client.get` returned a response.  `retryAfter` models the rate-limit
  reset signal in the response headers (present on 429 responses; the source
  code never inspects it).  `pipelineError` is a streaming failure raised
  while writing the body to disk, if any. -/
  | response (statusCode : Nat) (statusMessage : String)
      (retryAfter : Option Nat) (pipelineError : Option String)
deriving DecidableEq, Repr

/-- Result of the body of the `try` block for one attempt: lines 93-110 of
download.ts.  A non-200 status throws `HTTP <code>: <message>`; otherwise the
streamed write may fail; otherwise the attempt succeeds. -/
def attemptResult : HttpAttempt → Except String Unit
  | .getThrows msg => .error msg
  | .response code statusMsg _ pipeErr =>
    if code ≠ 200 then .error ("HTTP " ++ toString code ++ ": " ++ statusMsg)
    else
      match pipeErr with
      | none => .ok ()
      | some m => .error m

/-- Line 118 of download.ts: an error is non-retryable exactly when its
message contains `"HTTP 4"` and does not contain `"429"`. -/
def isNonRetryable (msg : String) : Bool :=
  strIncludes msg "HTTP 4" && !(strIncludes msg "429")

/-- Final outcome of `downloadFile`, one constructor per exit site. -/
inductive DownloadOutcome where
  /-- the `return` on line 110 -/
  | success
  /-- `throw lastError` on line 119 (non-retryable client error) -/
  | clientError (msg : String)
  /-- the `throw` on lines 124-126: `Failed to download after N attempts` -/
  | exhausted (attempts : Int) (msg : String)
  /-- the trailing `throw` on line 132: `Download failed for unknown reason` -/
  | unknownFailure
deriving DecidableEq, Repr

/-- The error message produced by a failing outcome, as rendered by the
corresponding `throw` site of the source. -/
def DownloadOutcome.message : DownloadOutcome → Option String
  | .success => none
  | .clientError msg => some msg
  | .exhausted n msg =>
    some ("Failed to download after " ++ toString n ++ " attempts: " ++ msg)
  | .unknownFailure => some "Download failed for unknown reason"

/-- Observable result of one `downloadFile` call: number of `client.get`
calls made, backoff delays slept (in order), final outcome. -/
structure DownloadRun where
  requests : Nat
  delays : List Nat
  outcome : DownloadOutcome
deriving DecidableEq, Repr

/-- The retry loop of `downloadFile` (lines 83-129).  `attempt` is the loop
counter; `fuel` is the number of loop iterations still allowed, i.e.
`maxRetries + 1 - attempt`.  When the loop exits without returning or
throwing, control reaches the trailing throw (line 132).  Before every
attempt but the first, the loop sleeps `retryDelayMs * 2 ^ (attempt - 1)`
milliseconds (line 86); the delay recorded at the head of the list here is
the sleep performed at the start of iteration `attempt + 1`. -/
def downloadGo (env : Nat → HttpAttempt) (maxRetries : Int) (retryDelayMs : Nat) :
    Nat → Nat → DownloadRun
  | _, 0 => ⟨0, [], .unknownFailure⟩
  | attempt, fuel + 1 =>
    match attemptResult (env attempt) with
    | .ok _ => ⟨1, [], .success⟩
    | .error msg =>
      if isNonRetryable msg then ⟨1, [], .clientError msg⟩
      else if (attempt : Int) ≥ maxRetries then ⟨1, [], .exhausted (maxRetries + 1) msg⟩
      else
        let r := downloadGo env maxRetries retryDelayMs (attempt + 1) fuel
        ⟨r.requests + 1, retryDelayMs * 2 ^ attempt :: r.delays, r.outcome⟩

/-- `downloadFile(url, destPath, maxRetries, retryDelayMs)`: the loop runs
for `attempt = 0, 1, …, maxRetries`, i.e. `(maxRetries + 1).toNat`
iterations (zero when `maxRetries` is negative, in which case the trailing
throw is reached directly). -/
def downloadFile (env : Nat → HttpAttempt) (maxRetries : Int) (retryDelayMs : Nat) :
    DownloadRun :=
  downloadGo env maxRetries retryDelayMs 0 (maxRetries + 1).toNat

/-! ## Behaviour of the retry loop -/

theorem downloadGo_step (env : Nat → HttpAttempt) (mx : Int) (d attempt fuel : Nat) :
    downloadGo env mx d attempt (fuel + 1) =
      match attemptResult (env attempt) with
      | .ok _ => ⟨1, [], .success⟩
      | .error msg =>
        if isNonRetryable msg then ⟨1, [], .clientError msg⟩
        else if (attempt : Int) ≥ mx then ⟨1, [], .exhausted (mx + 1) msg⟩
        else
          let r := downloadGo env mx d (attempt + 1) fuel
          ⟨r.requests + 1, d * 2 ^ attempt :: r.delays, r.outcome⟩ := rfl

theorem downloadGo_exhausts (env : Nat → HttpAttempt) (mR d : Nat) (msg : String)
    (hmsg : attemptResult (env mR) = .error msg)
    (hfail : ∀ i, i ≤ mR → ∃ m, attemptResult (env i) = .error m ∧ isNonRetryable m = false) :
    ∀ fuel attempt, attempt + fuel = mR →
      downloadGo env (mR : Int) d attempt (fuel + 1) =
        ⟨fuel + 1, (List.range' attempt fuel).map (fun k => d * 2 ^ k),
          .exhausted ((mR : Int) + 1) msg⟩ := by
  intro fuel
  induction fuel with
  | zero =>
    intro attempt h
    have ha : attempt = mR := by omega
    subst ha
    obtain ⟨m, hm, hmr⟩ := hfail attempt (Nat.le_refl attempt)
    have hmm : m = msg := by
      rw [hmsg] at hm
      exact (Except.error.inj hm).symm
    subst hmm
    rw [downloadGo_step]
    simp [hmsg, hmr]
  | succ fuel ih =>
    intro attempt h
    obtain ⟨m, hm, hmr⟩ := hfail attempt (by omega)
    have hge : ¬((attempt : Int) ≥ (mR : Int)) := by omega
    have hrec := ih (attempt + 1) (by omega)
    rw [downloadGo_step]
    simp only [hm, hmr, Bool.false_eq_true, if_false, ge_iff_le, hge, ite_false, hrec,
      if_neg hge]
    rw [List.range'_succ]
    simp

/-- C3: for every `maxRetries = m ≥ 0` and initial delay `d`, if every
attempt fails with a retryable error then `downloadFile` makes exactly
`m + 1` HTTP requests, sleeps exactly `d * 2 ^ (k - 1)` milliseconds before
retry `k` (`1 ≤ k ≤ m`, i.e. delay list `[d * 2^0, …, d * 2^(m-1)]`), and
finally throws `Failed to download after <m+1> attempts: <last error>`. -/
theorem downloadFile_exhausts_retries (env : Nat → HttpAttempt) (m d : Nat)
    (hfail : ∀ i, i ≤ m → ∃ msg, attemptResult (env i) = .error msg ∧
      isNonRetryable msg = false) :
    ∃ msg, attemptResult (env m) = .error msg ∧
      downloadFile env (m : Int) d =
        ⟨m + 1, (List.range m).map (fun k => d * 2 ^ k), .exhausted ((m : Int) + 1) msg⟩ ∧
      (downloadFile env (m : Int) d).outcome.message =
        some ("Failed to download after " ++ toString ((m : Int) + 1) ++ " attempts: " ++ msg) := by
  obtain ⟨msg, hmsg, -⟩ := hfail m (Nat.le_refl m)
  refine ⟨msg, hmsg, ?_, ?_⟩
  · have hfuel : ((m : Int) + 1).toNat = m + 1 := by omega
    have := downloadGo_exhausts env m d msg hmsg hfail m 0 (by omega)
    rw [downloadFile, hfuel, this, List.range_eq_range']
  · have hfuel : ((m : Int) + 1).toNat = m + 1 := by omega
    have := downloadGo_exhausts env m d msg hmsg hfail m 0 (by omega)
    rw [downloadFile, hfuel, this]
    rfl

/-- An environment in which every attempt fails with a transient network
error, as in the property test `Property 35`. -/
def envTimeout : Nat → HttpAttempt := fun _ => .getThrows "Network timeout"

/-- Witness for C3 at `m = 2`, `d = 100`: three attempts, delays 100 ms and
200 ms, final error after 3 attempts. -/
theorem downloadFile_exhausts_retries_witness :
    ∃ msg, attemptResult (envTimeout 2) = .error msg ∧
      downloadFile envTimeout ((2 : Nat) : Int) 100 =
        ⟨2 + 1, (List.range 2).map (fun k => 100 * 2 ^ k),
          .exhausted (((2 : Nat) : Int) + 1) msg⟩ ∧
      (downloadFile envTimeout ((2 : Nat) : Int) 100).outcome.message =
        some ("Failed to download after " ++ toString (((2 : Nat) : Int) + 1) ++
          " attempts: " ++ msg) :=
  downloadFile_exhausts_retries envTimeout 2 100 (fun _ _ =>
    ⟨"Network timeout", rfl, by decide⟩)

/-- C9: whenever the first attempt fails with an error whose message contains
`"HTTP 4"` and not `"429"`, `downloadFile` rethrows that very error after
exactly one HTTP request and sleeps no delay — the decision is by string
containment on the message (the hypotheses mention no status code). -/
theorem downloadFile_no_retry_on_client_error (env : Nat → HttpAttempt) (m : Int) (d : Nat)
    (msg : String) (hm : 0 ≤ m)
    (h0 : attemptResult (env 0) = .error msg)
    (h4 : strIncludes msg "HTTP 4" = true) (h429 : strIncludes msg "429" = false) :
    downloadFile env m d = ⟨1, [], .clientError msg⟩ := by
  obtain ⟨k, hk⟩ : ∃ k : Nat, (m + 1).toNat = k + 1 := ⟨m.toNat, by omega⟩
  rw [downloadFile, hk, downloadGo_step]
  simp [h0, isNonRetryable, h4, h429]

/-- An environment in which every attempt yields an HTTP 404 response. -/
def env404 : Nat → HttpAttempt := fun _ => .response 404 "Not Found" none none

/-- Witness for C9: a 404 response is fatal on the first attempt even with
`maxRetries = 3`. -/
theorem downloadFile_no_retry_on_client_error_witness :
    downloadFile env404 3 1000 = ⟨1, [], .clientError "HTTP 404: Not Found"⟩ :=
  downloadFile_no_retry_on_client_error env404 3 1000 "HTTP 404: Not Found"
    (by decide) rfl (by decide) (by decide)

theorem downloadGo_no_unknown (env : Nat → HttpAttempt) (mx : Int) (d : Nat) :
    ∀ (fuel attempt : Nat), mx < (attempt : Int) + (fuel : Int) → 1 ≤ fuel →
      (downloadGo env mx d attempt fuel).outcome ≠ .unknownFailure := by
  intro fuel
  induction fuel with
  | zero => intro attempt _ h1; omega
  | succ fuel ih =>
    intro attempt hlt _
    rw [downloadGo_step]
    cases hres : attemptResult (env attempt) with
    | ok u => simp [hres]
    | error msg =>
      simp only [hres]
      by_cases hnr : isNonRetryable msg
      · simp [hnr]
      · by_cases hge : (attempt : Int) ≥ mx
        · simp [hnr, hge]
        · have h1 : 1 ≤ fuel := by omega
          have h2 : mx < ((attempt + 1 : Nat) : Int) + (fuel : Int) := by push_cast; omega
          have hrec := ih (attempt + 1) h2 h1
          simp only [hnr, hge, Bool.not_eq_true, if_false, ite_false, if_neg hge]
          simpa using hrec

/-- C10: with `maxRetries ≥ 0` the trailing
`throw new Error('Download failed for unknown reason')` is unreachable —
every run returns or throws from within the loop; with `maxRetries < 0` the
loop body never executes, no HTTP request is made, and the trailing throw is
reached. -/
theorem downloadFile_fallthrough_unreachable (env : Nat → HttpAttempt) (m : Int) (d : Nat) :
    (0 ≤ m → (downloadFile env m d).outcome ≠ .unknownFailure) ∧
    (m < 0 → downloadFile env m d = ⟨0, [], .unknownFailure⟩) := by
  constructor
  · intro hm
    have h1 : 1 ≤ (m + 1).toNat := by omega
    have hlt : m < ((0 : Nat) : Int) + (((m + 1).toNat : Nat) : Int) := by
      push_cast
      omega
    exact downloadGo_no_unknown env m d (m + 1).toNat 0 hlt h1
  · intro hm
    have h0 : (m + 1).toNat = 0 := by omega
    rw [downloadFile, h0]
    rfl

/-- Witness for C10: the positive branch at `maxRetries = 3` (all-404
environment) and the negative branch at `maxRetries = -1`. -/
theorem downloadFile_fallthrough_unreachable_witness :
    (downloadFile env404 3 1000).outcome ≠ .unknownFailure ∧
    downloadFile env404 (-1) 1000 = ⟨0, [], .unknownFailure⟩ :=
  ⟨(downloadFile_fallthrough_unreachable env404 3 1000).1 (by decide),
   (downloadFile_fallthrough_unreachable env404 (-1) 1000).2 (by decide)⟩

/-! ## Rate limiting (HTTP 429) -/

theorem isNonRetryable_429 (sMsg : String) :
    isNonRetryable ("HTTP " ++ toString (429 : Nat) ++ ": " ++ sMsg) = false := by
  have h : ("HTTP " ++ toString (429 : Nat) ++ ": ") = "HTTP 429: " := by decide
  have h429 : strIncludes ("HTTP " ++ toString (429 : Nat) ++ ": " ++ sMsg) "429" = true := by
    rw [h, strIncludes, String.data_append]
    exact charsContains_append_left _ _ _ (by decide)
  rw [isNonRetryable, h429]
  simp

/-- An environment returning a 429 whose headers announce a 5000 ms reset
signal, then success. -/
def env429fast : Nat → HttpAttempt
  | 0 => .response 429 "Too Many Requests" (some 5000) none
  | _ => .response 200 "OK" none none

/-- An environment returning a 429 whose headers announce a 60000 ms reset
signal, then success. -/
def env429slow : Nat → HttpAttempt
  | 0 => .response 429 "Too Many Requests" (some 60000) none
  | _ => .response 200 "OK" none none

/-- C4 counterexample: the delay slept after a 429 is NOT derived from the
server's rate-limit reset signal.  Two runs whose reset signals differ
(5000 ms vs 60000 ms) both sleep exactly the fixed-schedule delay
`retryDelayMs * 2^0 = 100` ms, equal to neither signal. -/
theorem downloadFile_429_ignores_reset_signal :
    (downloadFile env429fast 3 100).delays = [100] ∧
    (downloadFile env429slow 3 100).delays = [100] ∧
    env429fast 0 ≠ env429slow 0 := by decide

/-- C4 amended: a 429 response does not cause an immediate failure — its
error message contains `"429"`, so the attempt is retried — but the delay
before the retry is the fixed exponential-backoff value
`retryDelayMs * 2^(k-1)`, independent of the reset signal `r` supplied by
the server. -/
theorem downloadFile_429_backoff (env : Nat → HttpAttempt) (m : Int) (d : Nat)
    (r : Option Nat) (sMsg : String) (hm : 1 ≤ m)
    (h0 : env 0 = .response 429 sMsg r none)
    (h1 : attemptResult (env 1) = .ok ()) :
    downloadFile env m d = ⟨2, [d], .success⟩ := by
  obtain ⟨k, hk⟩ : ∃ k : Nat, (m + 1).toNat = k + 2 := ⟨(m - 1).toNat, by omega⟩
  have h0' : attemptResult (env 0) =
      .error ("HTTP " ++ toString (429 : Nat) ++ ": " ++ sMsg) := by
    rw [h0]
    rfl
  have hge : ¬(((0 : Nat) : Int) ≥ m) := by push_cast; omega
  rw [downloadFile, hk, downloadGo_step]
  simp only [h0', isNonRetryable_429, Bool.false_eq_true, if_false, ite_false, if_neg hge]
  rw [downloadGo_step]
  simp [h1]

/-- Witness for the amended C4 at `m = 3`, `d = 100`, reset signal 5000 ms. -/
theorem downloadFile_429_backoff_witness :
    downloadFile env429fast 3 100 = ⟨2, [100], .success⟩ :=
  downloadFile_429_backoff env429fast 3 100 (some 5000) "Too Many Requests"
    (by decide) rfl rfl

/-! ## Embedding of `getPlatform` (src/shared/utils/download.ts, lines 160-194)
and the `Platform`/`Architecture`/`PlatformInfo` types of
src/unnamed/part_005 (shared types module). -/

/-- `type Platform = 'linux' | 'darwin' | 'win32'` -/
inductive Platform where
  | linux
  | darwin
  | win32
deriving DecidableEq, Repr

/-- `type Architecture = 'x64' | 'arm64'` -/
inductive Architecture where
  | x64
  | arm64
deriving DecidableEq, Repr

/-- `interface PlatformInfo { platform: Platform; arch: Architecture }` -/
structure PlatformInfo where
  platform : Platform
  arch : Architecture
deriving DecidableEq, Repr

/-- The string value each `Platform` member denotes. -/
def Platform.toStr : Platform → String
  | .linux => "linux"
  | .darwin => "darwin"
  | .win32 => "win32"

/-- The string value each `Architecture` member denotes. -/
def Architecture.toStr : Architecture → String
  | .x64 => "x64"
  | .arm64 => "arm64"

/-- The first `switch` of `getPlatform` (lines 166-178): maps
`process.platform` to a `Platform` or throws `Unsupported platform`. -/
def matchPlatform (nodePlatform : String) : Except String Platform :=
  match nodePlatform with
  | "linux" => Except.ok Platform.linux
  | "darwin" => Except.ok Platform.darwin
  | "win32" => Except.ok Platform.win32
  | _ => Except.error ("Unsupported platform: " ++ nodePlatform)

/-- The second `switch` of `getPlatform` (lines 181-191): maps
`process.arch` to an `Architecture` or throws `Unsupported architecture`. -/
def matchArch (nodeArch : String) : Except String Architecture :=
  match nodeArch with
  | "x64" => Except.ok Architecture.x64
  | "arm64" => Except.ok Architecture.arm64
  | _ => Except.error ("Unsupported architecture: " ++ nodeArch)

/-- `getPlatform()`: the platform switch runs first, so an unsupported
platform is reported even when the architecture is also unsupported; only
when both switches succeed is `{ platform, arch }` returned. -/
def getPlatform (nodePlatform nodeArch : String) : Except String PlatformInfo :=
  match matchPlatform nodePlatform, matchArch nodeArch with
  | .error e, _ => .error e
  | .ok _, .error e => .error e
  | .ok platform, .ok arch => .ok ⟨platform, arch⟩

theorem matchPlatform_ok (p : String) (hp : p = "linux" ∨ p = "darwin" ∨ p = "win32") :
    ∃ pl : Platform, matchPlatform p = .ok pl ∧ pl.toStr = p := by
  rcases hp with rfl | rfl | rfl
  · exact ⟨.linux, rfl, rfl⟩
  · exact ⟨.darwin, rfl, rfl⟩
  · exact ⟨.win32, rfl, rfl⟩

theorem matchPlatform_err (p : String)
    (hp : ¬(p = "linux" ∨ p = "darwin" ∨ p = "win32")) :
    matchPlatform p = .error ("Unsupported platform: " ++ p) := by
  delta matchPlatform
  split
  · exact absurd (Or.inl rfl) hp
  · exact absurd (Or.inr (Or.inl rfl)) hp
  · exact absurd (Or.inr (Or.inr rfl)) hp
  · rfl

theorem matchPlatform_ok_inv (p : String) (pl : Platform)
    (h : matchPlatform p = .ok pl) : p = "linux" ∨ p = "darwin" ∨ p = "win32" := by
  revert h
  delta matchPlatform
  split
  · exact fun _ => Or.inl rfl
  · exact fun _ => Or.inr (Or.inl rfl)
  · exact fun _ => Or.inr (Or.inr rfl)
  · intro h
    exact Except.noConfusion h

theorem matchArch_ok (a : String) (ha : a = "x64" ∨ a = "arm64") :
    ∃ ar : Architecture, matchArch a = .ok ar ∧ ar.toStr = a := by
  rcases ha with rfl | rfl
  · exact ⟨.x64, rfl, rfl⟩
  · exact ⟨.arm64, rfl, rfl⟩

theorem matchArch_err (a : String) (ha : ¬(a = "x64" ∨ a = "arm64")) :
    matchArch a = .error ("Unsupported architecture: " ++ a) := by
  delta matchArch
  split
  · exact absurd (Or.inl rfl) ha
  · exact absurd (Or.inr rfl) ha
  · rfl

theorem matchArch_ok_inv (a : String) (ar : Architecture)
    (h : matchArch a = .ok ar) : a = "x64" ∨ a = "arm64" := by
  revert h
  delta matchArch
  split
  · exact fun _ => Or.inl rfl
  · exact fun _ => Or.inr rfl
  · intro h
    exact Except.noConfusion h

/-- C8: `getPlatform` returns the pair unchanged exactly when the platform is
one of linux/darwin/win32 and the architecture one of x64/arm64; any other
platform yields the `Unsupported platform` error; a supported platform with
any other architecture yields the `Unsupported architecture` error; an `ok`
result occurs only for supported combinations (and is by construction a value
of `Platform × Architecture`). -/
theorem getPlatform_spec (p a : String) :
    ((p = "linux" ∨ p = "darwin" ∨ p = "win32") → (a = "x64" ∨ a = "arm64") →
      ∃ info : PlatformInfo, getPlatform p a = .ok info ∧
        info.platform.toStr = p ∧ info.arch.toStr = a) ∧
    (¬(p = "linux" ∨ p = "darwin" ∨ p = "win32") →
      getPlatform p a = .error ("Unsupported platform: " ++ p)) ∧
    ((p = "linux" ∨ p = "darwin" ∨ p = "win32") → ¬(a = "x64" ∨ a = "arm64") →
      getPlatform p a = .error ("Unsupported architecture: " ++ a)) ∧
    (∀ info : PlatformInfo, getPlatform p a = .ok info →
      (p = "linux" ∨ p = "darwin" ∨ p = "win32") ∧ (a = "x64" ∨ a = "arm64")) := by
  refine ⟨?_, ?_, ?_, ?_⟩
  · intro hp ha
    obtain ⟨pl, hpl, hpls⟩ := matchPlatform_ok p hp
    obtain ⟨ar, har, hars⟩ := matchArch_ok a ha
    refine ⟨⟨pl, ar⟩, ?_, hpls, hars⟩
    rw [getPlatform, hpl, har]
  · intro hp
    rw [getPlatform, matchPlatform_err p hp]
  · intro hp ha
    obtain ⟨pl, hpl, -⟩ := matchPlatform_ok p hp
    rw [getPlatform, hpl, matchArch_err a ha]
  · intro info hok
    rcases hpl : matchPlatform p with e | pl
    · rw [getPlatform, hpl] at hok
      exact Except.noConfusion hok
    · rcases har : matchArch a with e | ar
      · rw [getPlatform, hpl, har] at hok
        exact Except.noConfusion hok
      · exact ⟨matchPlatform_ok_inv p pl hpl, matchArch_ok_inv a ar har⟩

/-- Witness for C8: linux/x64 is returned unchanged, and windows-on-ia32 hits
the architecture error. -/
theorem getPlatform_spec_witness :
    (∃ info : PlatformInfo, getPlatform "linux" "x64" = .ok info ∧
      info.platform.toStr = "linux" ∧ info.arch.toStr = "x64") ∧
    getPlatform "win32" "ia32" = .error ("Unsupported architecture: " ++ "ia32") :=
  ⟨(getPlatform_spec "linux" "x64").1 (Or.inl rfl) (Or.inl rfl),
   (getPlatform_spec "win32" "ia32").2.2.1 (Or.inr (Or.inr rfl)) (by decide)⟩

/-! ## TaskParser

Modelled from the spec: the TaskParser implementation (§4.2) is not part of
the provided sources (only design prose describes the kiro-project-sync
action), so the component is modelled here from the specification's words:
checklist lines `- [ ] <id> <title>` / `- [x] <id> <title>`, an optional
trailing `*` after the id, an optional `_Requirements: …_` annotation line
attached to the most recent task, indentation-based parent/child structure,
and local recovery (warning + skip) on a malformed line — missing id or
duplicate id within the file. -/

/-- Task status: `[x]` maps to completed, `[ ]` to not_started, and the
side-channel in-progress marker (modelled as `[-]`) to in_progress (§4.2
treats status as ternary). -/
inductive TaskStatus where
  | not_started
  | in_progress
  | completed
deriving DecidableEq, Repr

/-- Modelled from the spec: the TaskRecord data model of §3. -/
structure TaskRecord where
  specName : String
  taskId : String
  title : String
  description : String
  status : TaskStatus
  requirementRefs : List String
  isOptional : Bool
  parentTaskId : Option String
  sourceFile : String
  sourceLine : Nat
deriving DecidableEq, Repr

/-- Number of leading spaces of a line. -/
def countIndent : List Char → Nat
  | ' ' :: rest => countIndent rest + 1
  | _ => 0

/-- The line with its leading spaces removed. -/
def dropIndent : List Char → List Char
  | ' ' :: rest => dropIndent rest
  | cs => cs

/-- The status denoted by the checkbox character, if it is a recognized one. -/
def checkboxStatus : Char → Option TaskStatus
  | ' ' => some .not_started
  | 'x' => some .completed
  | '-' => some .in_progress
  | _ => none

/-- Recognizes `- [c] rest` (after indentation) and returns the status and
the remainder of the line. -/
def checklistShape : List Char → Option (TaskStatus × List Char)
  | '-' :: ' ' :: '[' :: c :: ']' :: ' ' :: rest =>
    match checkboxStatus c with
    | some st => some (st, rest)
    | none => none
  | _ => none

/-- A line is a checklist (task) line when it has the `- [c] ` shape after
its indentation. -/
def isTaskLine (line : String) : Bool :=
  (checklistShape (dropIndent line.data)).isSome

/-- A task id is a nonempty dotted string of digits, e.g. `3.2.1`. -/
def isIdChar (c : Char) : Bool := c.isDigit || c == '.'

/-- First whitespace-delimited token of the remainder and what follows it. -/
def firstToken (cs : List Char) : List Char × List Char :=
  (cs.takeWhile (fun c => !(c == ' ')), cs.dropWhile (fun c => !(c == ' ')))

/-- Strips the optional-task marker: a trailing `*` after the id. -/
def splitOptional (tok : List Char) : List Char × Bool :=
  match tok.getLast? with
  | some '*' => (tok.dropLast, true)
  | _ => (tok, false)

/-- Validity of an id token: nonempty, digits and dots only. -/
def validId (tok : List Char) : Bool :=
  !tok.isEmpty && tok.all isIdChar

/-- Recognizes a `_Requirements: <ref>, <ref>, …_` annotation line and
returns the references. -/
def requirementsShape (cs : List Char) : Option (List String) :=
  if charsPrefix "_Requirements: ".data cs && (cs.getLast? == some '_') then
    some ((String.mk ((cs.drop 15).dropLast)).splitOn ", ")
  else none

/-- Parser state: records and warnings (most recent first), ids already seen
in this file, ancestor stack `(indent, taskId)` (innermost first), and the
current line number. -/
structure ParseState where
  revRecords : List TaskRecord
  revWarnings : List String
  seenIds : List String
  stack : List (Nat × String)
  lineNo : Nat
deriving DecidableEq, Repr

/-- Pops ancestors whose indentation is not strictly smaller than the
current line's: a task is a child of the nearest preceding line with
strictly smaller indentation (§4.2). -/
def popStack (indent : Nat) : List (Nat × String) → List (Nat × String)
  | [] => []
  | (i, tid) :: rest => if indent ≤ i then popStack indent rest else (i, tid) :: rest

/-- Attaches a `_Requirements: …_` annotation to the most recently parsed
task, if any. -/
def attachRefs (refs : List String) : List TaskRecord → List TaskRecord
  | [] => []
  | r :: rest => { r with requirementRefs := refs } :: rest

/-- Modelled from the spec: processing of one line (§4.2).  A checklist line
with a valid, fresh id yields a TaskRecord; a checklist line with a missing
(invalid) id or a duplicate id yields one warning and is skipped; a
requirements annotation updates the most recent record; anything else is
ignored.  No branch aborts the file. -/
def parseLine (specName sourceFile : String) (st : ParseState) (line : String) : ParseState :=
  let cs := line.data
  let indent := countIndent cs
  let body := dropIndent cs
  match checklistShape body with
  | some (status, rest) =>
    let tok := (firstToken rest).1
    let after := (firstToken rest).2
    let idTok := (splitOptional tok).1
    let isOpt := (splitOptional tok).2
    if validId idTok then
      let taskId := String.mk idTok
      if st.seenIds.contains taskId then
        { st with
          revWarnings :=
            ("duplicate task id " ++ taskId ++ " in " ++ sourceFile) :: st.revWarnings,
          lineNo := st.lineNo + 1 }
      else
        let stack' := popStack indent st.stack
        let parent := stack'.head?.map (fun p => p.2)
        let record : TaskRecord :=
          { specName := specName, taskId := taskId,
            title := String.mk (after.dropWhile (fun c => c == ' ')),
            description := "", status := status, requirementRefs := [],
            isOptional := isOpt, parentTaskId := parent,
            sourceFile := sourceFile, sourceLine := st.lineNo }
        { st with
          revRecords := record :: st.revRecords,
          seenIds := taskId :: st.seenIds,
          stack := (indent, taskId) :: stack',
          lineNo := st.lineNo + 1 }
    else
      { st with
        revWarnings :=
          ("malformed checklist line (missing id) in " ++ sourceFile) :: st.revWarnings,
        lineNo := st.lineNo + 1 }
  | none =>
    match requirementsShape body with
    | some refs =>
      { st with revRecords := attachRefs refs st.revRecords, lineNo := st.lineNo + 1 }
    | none => { st with lineNo := st.lineNo + 1 }

/-- Initial parser state (line numbers start at 1). -/
def initState : ParseState := ⟨[], [], [], [], 1⟩

/-- Modelled from the spec: parsing one task file (§4.2) — a total function;
parsing cannot throw. -/
def parseTaskFile (specName sourceFile : String) (lines : List String) :
    List TaskRecord × List String :=
  let st := lines.foldl (parseLine specName sourceFile) initState
  (st.revRecords.reverse, st.revWarnings.reverse)

theorem attachRefs_length (refs : List String) (l : List TaskRecord) :
    (attachRefs refs l).length = l.length := by
  cases l <;> rfl

theorem parseLine_count (specName sourceFile : String) (st : ParseState) (line : String) :
    (parseLine specName sourceFile st line).revRecords.length +
      (parseLine specName sourceFile st line).revWarnings.length =
    st.revRecords.length + st.revWarnings.length + (if isTaskLine line then 1 else 0) := by
  rw [parseLine, isTaskLine]
  cases hshape : checklistShape (dropIndent line.data) with
  | some p =>
    simp only [Option.isSome_some, if_true]
    by_cases hv : validId (splitOptional (firstToken p.2).1).1
    · by_cases hdup : (String.mk (splitOptional (firstToken p.2).1).1) ∈ st.seenIds
      · simp [hv, hdup]
        omega
      · simp [hv, hdup]
        omega
    · simp [hv]
      omega
  | none =>
    simp only [Option.isSome_none, if_false]
    cases hreq : requirementsShape (dropIndent line.data) with
    | some refs => simp [hreq, attachRefs_length]
    | none => simp [hreq]

theorem parseFold_count (specName sourceFile : String) (lines : List String) :
    ∀ st : ParseState,
      (lines.foldl (parseLine specName sourceFile) st).revRecords.length +
        (lines.foldl (parseLine specName sourceFile) st).revWarnings.length =
      st.revRecords.length + st.revWarnings.length + lines.countP isTaskLine := by
  induction lines with
  | nil => intro st; simp
  | cons l rest ih =>
    intro st
    rw [List.foldl_cons, List.countP_cons]
    rw [ih (parseLine specName sourceFile st l), parseLine_count]
    by_cases h : isTaskLine l <;> (simp [h]; try omega)

/-- A ten-line task file: nine well-formed checklist lines with distinct ids
and one malformed line (its id token `fix` is not a dotted numeric id). -/
def demoLines : List String :=
  [ "- [ ] 1 Set up project",
    "- [x] 1.1 Init repo",
    "- [ ] 1.2 Configure CI",
    "- [ ] fix the thing",
    "- [ ] 2 Build feature",
    "  - [ ] 2.1 Create download utility",
    "  - [-] 2.2 Add tests",
    "- [x] 3 Release",
    "- [ ] 3.1* Optional polish",
    "- [ ] 3.2 Wrap up" ]

/-- C5: the parser is a total function (it cannot throw), and every
checklist line contributes exactly one TaskRecord or exactly one warning —
a bad line is skipped with one warning while the rest of the file is still
parsed; in particular the ten-line file with one malformed and nine
well-formed lines yields exactly nine TaskRecords and one warning. -/
theorem parser_resilience (specName sourceFile : String) (lines : List String) :
    ((parseTaskFile specName sourceFile lines).1.length +
       (parseTaskFile specName sourceFile lines).2.length =
     lines.countP isTaskLine) ∧
    (parseTaskFile "demo" "tasks.md" demoLines).1.length = 9 ∧
    (parseTaskFile "demo" "tasks.md" demoLines).2.length = 1 := by
  refine ⟨?_, by decide, by decide⟩
  rw [parseTaskFile]
  simp only [List.length_reverse]
  have h := parseFold_count specName sourceFile lines initState
  simpa [initState] using h

/-! ## Issue synchronization engine

Modelled from the spec: the IssueSynchronizer, StatusReconciler and
CrossRepoTagger implementations (§4.3-§4.5) are not part of the provided
sources (only design prose describes the kiro-project-sync action), so they
are modelled here from the specification's words: SyncKey identity, label
encoding `spec:<name>` / `task:<id>` / `repo:<identifier>` (§6),
search-based mapping reconstruction (§3), create-if-absent /
update-only-on-difference (§4.3), lowest-numbered canonical issue on
conflict (§4.3), and one-way / two-way status reconciliation (§4.4).
Tracker writes are recorded explicitly so that idempotence (zero writes on a
second run) is observable. -/

/-- Modelled from the spec: the stable `(specName, taskId, repoIdentifier)`
identity of §3. -/
structure SyncKey where
  specName : String
  taskId : String
  repoIdentifier : String
deriving DecidableEq, Repr

/-- Issue state: `opened` models the spec's `open` (a keyword in Lean),
`closed` is `closed`. -/
inductive IssueState where
  | opened
  | closed
deriving DecidableEq, Repr

/-- Modelled from the spec: the IssueRecord data model of §3, plus the
last-updated timestamp §4.4's two-way mode compares against. -/
structure IssueRecord where
  number : Nat
  title : String
  body : String
  state : IssueState
  labels : List String
  sourceRepo : String
  updatedAt : Nat
deriving DecidableEq, Repr

/-- The remote tracker's issue set. -/
structure Tracker where
  issues : List IssueRecord
deriving DecidableEq, Repr

/-- The SyncKey of a task in a given repository. -/
def keyOf (repoId : String) (t : TaskRecord) : SyncKey :=
  ⟨t.specName, t.taskId, repoId⟩

/-- Modelled from the spec: the labels encoding a SyncKey (§6):
`spec:<name>`, `task:<id>`, `repo:<identifier>`. -/
def keyLabels (k : SyncKey) : List String :=
  ["spec:" ++ k.specName, "task:" ++ k.taskId, "repo:" ++ k.repoIdentifier]

/-- An issue is tagged with a SyncKey when it carries all of the key's
labels — this is the tracker-side search of §3/§4.3. -/
def hasKey (k : SyncKey) (i : IssueRecord) : Bool :=
  (keyLabels k).all (fun l => i.labels.contains l)

/-- The label search reconstructing the SyncMapping each run (§3). -/
def searchByKey (k : SyncKey) (T : Tracker) : List IssueRecord :=
  T.issues.filter (hasKey k)

/-- Number of issues associated with a SyncKey. -/
def countKey (k : SyncKey) (T : Tracker) : Nat :=
  (searchByKey k T).length

/-- Tie-break policy of §4.3: the lowest-numbered matching issue is
canonical. -/
def canonicalIssue : List IssueRecord → Option IssueRecord
  | [] => none
  | i :: rest =>
    match canonicalIssue rest with
    | none => some i
    | some j => some (if i.number ≤ j.number then i else j)

/-- Fresh issue number assigned by the tracker on creation. -/
def nextIssueNumber (T : Tracker) : Nat :=
  (T.issues.map IssueRecord.number).foldr max 0 + 1

/-- Modelled from the spec: the issue title referencing `<id> <title>`
(§8's concrete scenario). -/
def issueTitle (t : TaskRecord) : String :=
  t.taskId ++ " " ++ t.title

/-- Modelled from the spec: the templated body embedding `specName`,
`taskId`, `description` and `requirementRefs` (§4.3, §6). -/
def issueBody (t : TaskRecord) : String :=
  "Spec: " ++ t.specName ++ "\nTask: " ++ t.taskId ++ "\n\n" ++ t.description ++
    "\n\nRequirements: " ++ String.intercalate ", " t.requirementRefs

/-- One-way mode state mapping (§4.4): `not_started`/`in_progress` drive
`open`, `completed` drives `closed`. -/
def statusToState : TaskStatus → IssueState
  | .completed => .closed
  | .not_started => .opened
  | .in_progress => .opened

/-- Two-way mode read-back mapping (§8's round trip): `open` maps back to
`in_progress`, `closed` to `completed`. -/
def stateToStatus : IssueState → TaskStatus
  | .opened => .in_progress
  | .closed => .completed

/-- A write performed against the tracker or the task file. -/
inductive WriteOp where
  | createIssue (number : Nat) (k : SyncKey)
  | updateIssue (number : Nat)
  | setState (number : Nat) (s : IssueState)
  | writeTaskFile (taskId : String) (newStatus : TaskStatus)
deriving DecidableEq, Repr

/-- Sync configuration (§4.4): one-way or two-way reconciliation. -/
inductive SyncMode where
  | oneWay
  | twoWay
deriving DecidableEq, Repr

/-- `updateIssue(number, …)`: rewrites title and body of the issue with the
given number, leaving labels, state and timestamps unchanged. -/
def contentPatch (n : Nat) (t : TaskRecord) (i : IssueRecord) : IssueRecord :=
  if i.number == n then { i with title := issueTitle t, body := issueBody t } else i

/-- State transition write: sets the state of the issue with the given
number. -/
def statePatch (n : Nat) (s : IssueState) (i : IssueRecord) : IssueRecord :=
  if i.number == n then { i with state := s } else i

/-- Tracker after an `updateIssue` content write. -/
def updateIssueContent (n : Nat) (t : TaskRecord) (T : Tracker) : Tracker :=
  ⟨T.issues.map (contentPatch n t)⟩

/-- Tracker after a state write. -/
def setIssueState (n : Nat) (s : IssueState) (T : Tracker) : Tracker :=
  ⟨T.issues.map (statePatch n s)⟩

/-- Modelled from the spec: the IssueSynchronizer's per-task step (§4.3):
search the tracker for the task's SyncKey; if absent, create an issue with
the templated content and the key's labels; if present, take the
lowest-numbered match as canonical and update its content only on a real
difference. -/
def syncTask (repoId : String) (T : Tracker) (t : TaskRecord) : Tracker × List WriteOp :=
  let k := keyOf repoId t
  match canonicalIssue (searchByKey k T) with
  | none =>
    let n := nextIssueNumber T
    let issue : IssueRecord :=
      ⟨n, issueTitle t, issueBody t, .opened, keyLabels k, repoId, 0⟩
    (⟨T.issues ++ [issue]⟩, [.createIssue n k])
  | some i =>
    if i.title == issueTitle t && i.body == issueBody t then (T, [])
    else (updateIssueContent i.number t T, [.updateIssue i.number])

/-- Modelled from the spec: the StatusReconciler's per-task step (§4.4).
One-way mode: task status drives issue state, writing only on a real
difference; issue-side changes are never read back.  Two-way mode:
last-writer-wins — when the issue's last-updated timestamp is newer than
the task file's modification time, the issue state is read back into the
task's status (a task-file write); otherwise the task drives the issue as
in one-way mode. -/
def reconcileTask (mode : SyncMode) (repoId : String) (fileMtime : Nat)
    (T : Tracker) (t : TaskRecord) : Tracker × TaskRecord × List WriteOp :=
  let k := keyOf repoId t
  match canonicalIssue (searchByKey k T) with
  | none => (T, t, [])
  | some i =>
    match mode with
    | .oneWay =>
      let desired := statusToState t.status
      if i.state == desired then (T, t, [])
      else (setIssueState i.number desired T, t, [.setState i.number desired])
    | .twoWay =>
      if fileMtime < i.updatedAt then
        let newStatus := stateToStatus i.state
        if t.status == newStatus then (T, t, [])
        else (T, { t with status := newStatus }, [.writeTaskFile t.taskId newStatus])
      else
        let desired := statusToState t.status
        if i.state == desired then (T, t, [])
        else (setIssueState i.number desired T, t, [.setState i.number desired])

/-- One full pipeline step for one task: synchronize content, then
reconcile status (§2's control flow). -/
def syncStep (mode : SyncMode) (repoId : String) (fileMtime : Nat)
    (T : Tracker) (t : TaskRecord) : Tracker × TaskRecord × List WriteOp :=
  let s := syncTask repoId T t
  let r := reconcileTask mode repoId fileMtime s.1 t
  (r.1, r.2.1, s.2 ++ r.2.2)

/-- A synchronizer run over a list of tasks, in document order;
per-key operations are serialized (§5), so a run is a sequential fold. -/
def runSync (mode : SyncMode) (repoId : String) (fileMtime : Nat) :
    Tracker → List TaskRecord → Tracker × List TaskRecord × List WriteOp
  | T, [] => (T, [], [])
  | T, t :: ts =>
    let s := syncStep mode repoId fileMtime T t
    let r := runSync mode repoId fileMtime s.1 ts
    (r.1, s.2.1 :: r.2.1, s.2.2 ++ r.2.2)

/-! ### Label encoding is injective -/

theorem string_append_left_cancel {p a b : String} (h : p ++ a = p ++ b) : a = b := by
  apply String.ext
  have h2 := congrArg String.data h
  rw [String.data_append, String.data_append] at h2
  exact List.append_cancel_left h2

theorem specLabel_ne_taskLabel (a b : String) : "spec:" ++ a ≠ "task:" ++ b := by
  intro h
  have h2 := congrArg String.data h
  rw [String.data_append, String.data_append] at h2
  have e1 : "spec:".data = ['s', 'p', 'e', 'c', ':'] := rfl
  have e2 : "task:".data = ['t', 'a', 's', 'k', ':'] := rfl
  rw [e1, e2] at h2
  simp at h2

theorem specLabel_ne_repoLabel (a b : String) : "spec:" ++ a ≠ "repo:" ++ b := by
  intro h
  have h2 := congrArg String.data h
  rw [String.data_append, String.data_append] at h2
  have e1 : "spec:".data = ['s', 'p', 'e', 'c', ':'] := rfl
  have e2 : "repo:".data = ['r', 'e', 'p', 'o', ':'] := rfl
  rw [e1, e2] at h2
  simp at h2

theorem taskLabel_ne_repoLabel (a b : String) : "task:" ++ a ≠ "repo:" ++ b := by
  intro h
  have h2 := congrArg String.data h
  rw [String.data_append, String.data_append] at h2
  have e1 : "task:".data = ['t', 'a', 's', 'k', ':'] := rfl
  have e2 : "repo:".data = ['r', 'e', 'p', 'o', ':'] := rfl
  rw [e1, e2] at h2
  simp at h2

/-- An issue whose labels are exactly the labels of key `k'` is tagged with
key `k` precisely when `k = k'`: the three-label encoding is injective. -/
theorem hasKey_keyLabels_iff (k k' : SyncKey) (i : IssueRecord)
    (hl : i.labels = keyLabels k') : (hasKey k i = true) ↔ k = k' := by
  constructor
  · intro h
    rw [hasKey, hl] at h
    simp only [keyLabels, List.all_cons, List.all_nil, Bool.and_eq_true, and_true,
      List.contains, List.elem_eq_mem, decide_eq_true_eq, List.mem_cons,
      List.mem_singleton, List.not_mem_nil, or_false] at h
    obtain ⟨h1, h2, h3⟩ := h
    have hs : k.specName = k'.specName := by
      rcases h1 with h | h | h
      · exact string_append_left_cancel h
      · exact absurd h (specLabel_ne_taskLabel _ _)
      · exact absurd h (specLabel_ne_repoLabel _ _)
    have ht : k.taskId = k'.taskId := by
      rcases h2 with h | h | h
      · exact absurd h.symm (specLabel_ne_taskLabel _ _)
      · exact string_append_left_cancel h
      · exact absurd h (taskLabel_ne_repoLabel _ _)
    have hr : k.repoIdentifier = k'.repoIdentifier := by
      rcases h3 with h | h | h
      · exact absurd h.symm (specLabel_ne_repoLabel _ _)
      · exact absurd h.symm (taskLabel_ne_repoLabel _ _)
      · exact string_append_left_cancel h
    cases k
    cases k'
    simp_all
  · rintro rfl
    rw [hasKey, hl]
    simp [keyLabels]

/-! ### Canonical issue selection -/

theorem canonicalIssue_eq_none_iff (l : List IssueRecord) :
    canonicalIssue l = none ↔ l = [] := by
  cases l with
  | nil => simp [canonicalIssue]
  | cons i rest =>
    simp only [canonicalIssue]
    cases canonicalIssue rest <;> simp

theorem canonicalIssue_mem (l : List IssueRecord) (i : IssueRecord)
    (h : canonicalIssue l = some i) : i ∈ l := by
  induction l generalizing i with
  | nil => exact absurd h (by simp [canonicalIssue])
  | cons j rest ih =>
    rw [canonicalIssue] at h
    cases hr : canonicalIssue rest with
    | none =>
      rw [hr] at h
      simp only [Option.some.injEq] at h
      exact h ▸ List.mem_cons_self j rest
    | some c =>
      rw [hr] at h
      simp only [Option.some.injEq] at h
      by_cases hn : j.number ≤ c.number
      · rw [if_pos hn] at h
        exact h ▸ List.mem_cons_self j rest
      · rw [if_neg hn] at h
        subst h
        exact List.mem_cons_of_mem j (ih c hr)

theorem canonicalIssue_map (f : IssueRecord → IssueRecord)
    (hf : ∀ i, (f i).number = i.number) (l : List IssueRecord) :
    canonicalIssue (l.map f) = (canonicalIssue l).map f := by
  induction l with
  | nil => rfl
  | cons i rest ih =>
    simp only [List.map_cons, canonicalIssue, ih]
    cases canonicalIssue rest with
    | none => rfl
    | some c =>
      simp only [Option.map_some', hf]
      rw [apply_ite f]

/-! ### Patches preserve numbers and labels -/

theorem contentPatch_number (n : Nat) (t : TaskRecord) (i : IssueRecord) :
    (contentPatch n t i).number = i.number := by
  rw [contentPatch]
  split <;> rfl

theorem contentPatch_labels (n : Nat) (t : TaskRecord) (i : IssueRecord) :
    (contentPatch n t i).labels = i.labels := by
  rw [contentPatch]
  split <;> rfl

theorem contentPatch_state (n : Nat) (t : TaskRecord) (i : IssueRecord) :
    (contentPatch n t i).state = i.state := by
  rw [contentPatch]
  split <;> rfl

theorem contentPatch_updatedAt (n : Nat) (t : TaskRecord) (i : IssueRecord) :
    (contentPatch n t i).updatedAt = i.updatedAt := by
  rw [contentPatch]
  split <;> rfl

theorem statePatch_number (n : Nat) (s : IssueState) (i : IssueRecord) :
    (statePatch n s i).number = i.number := by
  rw [statePatch]
  split <;> rfl

theorem statePatch_labels (n : Nat) (s : IssueState) (i : IssueRecord) :
    (statePatch n s i).labels = i.labels := by
  rw [statePatch]
  split <;> rfl

theorem statePatch_title (n : Nat) (s : IssueState) (i : IssueRecord) :
    (statePatch n s i).title = i.title := by
  rw [statePatch]
  split <;> rfl

theorem statePatch_body (n : Nat) (s : IssueState) (i : IssueRecord) :
    (statePatch n s i).body = i.body := by
  rw [statePatch]
  split <;> rfl

theorem statePatch_updatedAt (n : Nat) (s : IssueState) (i : IssueRecord) :
    (statePatch n s i).updatedAt = i.updatedAt := by
  rw [statePatch]
  split <;> rfl

theorem hasKey_of_labels_eq (k : SyncKey) (i j : IssueRecord)
    (h : j.labels = i.labels) : hasKey k j = hasKey k i := by
  rw [hasKey, hasKey, h]

/-! ### Search under tracker transformations -/

theorem filter_map_pred {α : Type} (p : α → Bool) (f : α → α)
    (hf : ∀ a, p (f a) = p a) (l : List α) :
    (l.map f).filter p = (l.filter p).map f := by
  induction l with
  | nil => rfl
  | cons a rest ih =>
    by_cases h : p a = true
    · simp [List.filter_cons, hf, h, ih]
    · simp only [Bool.not_eq_true] at h
      simp [List.filter_cons, hf, h, ih]

theorem searchByKey_append (k : SyncKey) (l1 l2 : List IssueRecord) :
    searchByKey k ⟨l1 ++ l2⟩ = searchByKey k ⟨l1⟩ ++ searchByKey k ⟨l2⟩ := by
  simp [searchByKey]

theorem searchByKey_updateContent (k : SyncKey) (n : Nat) (t : TaskRecord) (T : Tracker) :
    searchByKey k (updateIssueContent n t T) = (searchByKey k T).map (contentPatch n t) :=
  filter_map_pred (hasKey k) (contentPatch n t)
    (fun i => hasKey_of_labels_eq k i _ (contentPatch_labels n t i)) T.issues

theorem searchByKey_setState (k : SyncKey) (n : Nat) (s : IssueState) (T : Tracker) :
    searchByKey k (setIssueState n s T) = (searchByKey k T).map (statePatch n s) :=
  filter_map_pred (hasKey k) (statePatch n s)
    (fun i => hasKey_of_labels_eq k i _ (statePatch_labels n s i)) T.issues

/-! ### Issue counts under the engine's operations -/

theorem countKey_updateContent (k : SyncKey) (n : Nat) (t : TaskRecord) (T : Tracker) :
    countKey k (updateIssueContent n t T) = countKey k T := by
  rw [countKey, countKey, searchByKey_updateContent, List.length_map]

theorem countKey_setState (k : SyncKey) (n : Nat) (s : IssueState) (T : Tracker) :
    countKey k (setIssueState n s T) = countKey k T := by
  rw [countKey, countKey, searchByKey_setState, List.length_map]

theorem countKey_append_single (k : SyncKey) (T : Tracker) (j : IssueRecord) :
    countKey k ⟨T.issues ++ [j]⟩ =
      countKey k T + (if hasKey k j = true then 1 else 0) := by
  rw [countKey, countKey, searchByKey, searchByKey, List.filter_append]
  by_cases h : hasKey k j = true <;> simp [h]

theorem countKey_zero_iff (k : SyncKey) (T : Tracker) :
    countKey k T = 0 ↔ searchByKey k T = [] := by
  rw [countKey, List.length_eq_zero]

theorem countKey_syncTask (repoId : String) (T : Tracker) (t : TaskRecord) (k : SyncKey) :
    countKey k (syncTask repoId T t).1 =
      if countKey (keyOf repoId t) T = 0 ∧ k = keyOf repoId t then 1
      else countKey k T := by
  rw [syncTask]
  cases hc : canonicalIssue (searchByKey (keyOf repoId t) T) with
  | none =>
    have hempty : searchByKey (keyOf repoId t) T = [] :=
      (canonicalIssue_eq_none_iff _).mp hc
    have h0 : countKey (keyOf repoId t) T = 0 := (countKey_zero_iff _ _).mpr hempty
    dsimp only
    rw [countKey_append_single]
    by_cases hk : k = keyOf repoId t
    · have hhk : hasKey k (⟨nextIssueNumber T, issueTitle t, issueBody t, .opened,
          keyLabels (keyOf repoId t), repoId, 0⟩ : IssueRecord) = true :=
        (hasKey_keyLabels_iff k (keyOf repoId t) _ rfl).mpr hk
      simp [hhk, h0, hk]
      exact hk ▸ hhk
    · have hnk : hasKey k ⟨nextIssueNumber T, issueTitle t, issueBody t, .opened,
          keyLabels (keyOf repoId t), repoId, 0⟩ ≠ true := by
        intro hcontra
        exact hk ((hasKey_keyLabels_iff k (keyOf repoId t) _ rfl).mp hcontra)
      simp [hnk, hk]
  | some i =>
    have hne : countKey (keyOf repoId t) T ≠ 0 := by
      intro h0
      rw [(countKey_zero_iff _ _).mp h0] at hc
      simp [canonicalIssue] at hc
    rw [if_neg (fun hand => hne hand.1)]
    dsimp only
    split
    · rfl
    · exact countKey_updateContent k i.number t T

theorem countKey_reconcileTask (mode : SyncMode) (repoId : String) (mt : Nat)
    (T : Tracker) (t : TaskRecord) (k : SyncKey) :
    countKey k (reconcileTask mode repoId mt T t).1 = countKey k T := by
  rw [reconcileTask]
  cases hc : canonicalIssue (searchByKey (keyOf repoId t) T) with
  | none => rfl
  | some i =>
    cases mode with
    | oneWay =>
      dsimp only
      split
      · rfl
      · exact countKey_setState k i.number _ T
    | twoWay =>
      dsimp only
      split
      · split
        · rfl
        · rfl
      · split
        · rfl
        · exact countKey_setState k i.number _ T

theorem countKey_syncStep (mode : SyncMode) (repoId : String) (mt : Nat)
    (T : Tracker) (t : TaskRecord) (k : SyncKey) :
    countKey k (syncStep mode repoId mt T t).1 =
      if countKey (keyOf repoId t) T = 0 ∧ k = keyOf repoId t then 1
      else countKey k T := by
  rw [syncStep]
  dsimp only
  rw [countKey_reconcileTask, countKey_syncTask]

theorem countKey_runSync_cases (mode : SyncMode) (repoId : String) (mt : Nat) (k : SyncKey) :
    ∀ (ts : List TaskRecord) (T : Tracker),
      countKey k (runSync mode repoId mt T ts).1 = countKey k T ∨
      (countKey k T = 0 ∧ countKey k (runSync mode repoId mt T ts).1 = 1) := by
  intro ts
  induction ts with
  | nil => intro T; left; rfl
  | cons t ts ih =>
    intro T
    rw [runSync]
    dsimp only
    have hstep := countKey_syncStep mode repoId mt T t k
    rcases ih (syncStep mode repoId mt T t).1 with h | ⟨h0, h1⟩
    · by_cases hcond : countKey (keyOf repoId t) T = 0 ∧ k = keyOf repoId t
      · right
        refine ⟨hcond.2 ▸ hcond.1, ?_⟩
        rw [h, hstep, if_pos hcond]
      · left
        rw [h, hstep, if_neg hcond]
    · by_cases hcond : countKey (keyOf repoId t) T = 0 ∧ k = keyOf repoId t
      · rw [hstep, if_pos hcond] at h0
        exact absurd h0 one_ne_zero
      · right
        rw [hstep, if_neg hcond] at h0
        exact ⟨h0, h1⟩

/-- C1: for every SyncKey and every (serialized, per §5) sequence of
synchronizer steps — covering repeated runs, interleaved runs over other
keys, and crash-interrupted prefixes — the number of issues associated with
the key never exceeds `max (initial count) 1`: a key with no issue gains at
most one, and pre-existing duplicates are detected, never multiplied (their
count stays exactly what it was). -/
theorem runSync_at_most_one_issue (mode : SyncMode) (repoId : String) (mt : Nat)
    (k : SyncKey) (T : Tracker) (ts : List TaskRecord) :
    countKey k (runSync mode repoId mt T ts).1 ≤ max (countKey k T) 1 ∧
    (1 ≤ countKey k T → countKey k (runSync mode repoId mt T ts).1 = countKey k T) := by
  rcases countKey_runSync_cases mode repoId mt k ts T with h | ⟨h0, h1⟩
  · exact ⟨h ▸ le_max_left _ _, fun _ => h⟩
  · refine ⟨h1 ▸ le_max_right _ _, fun hge => ?_⟩
    omega

/-- Witness for C1: a run creating one issue from an empty tracker, and a
second run on the resulting tracker leaving the count unchanged. -/
theorem runSync_at_most_one_issue_witness :
    countKey ⟨"kiro-workers", "2.1", "repoA"⟩
        (runSync .oneWay "repoA" 5 ⟨[]⟩
          [{ specName := "kiro-workers", taskId := "2.1",
             title := "Create download utility", description := "", status := .not_started,
             requirementRefs := [], isOptional := false, parentTaskId := none,
             sourceFile := "tasks.md", sourceLine := 1 }]).1 ≤
      max (countKey ⟨"kiro-workers", "2.1", "repoA"⟩ (⟨[]⟩ : Tracker)) 1 ∧
    countKey ⟨"kiro-workers", "2.1", "repoA"⟩
        (runSync .oneWay "repoA" 5
          (⟨[⟨7, "t", "b", .opened, keyLabels ⟨"kiro-workers", "2.1", "repoA"⟩, "repoA", 0⟩]⟩ :
            Tracker)
          [{ specName := "kiro-workers", taskId := "2.1",
             title := "Create download utility", description := "", status := .not_started,
             requirementRefs := [], isOptional := false, parentTaskId := none,
             sourceFile := "tasks.md", sourceLine := 1 }]).1 =
      countKey ⟨"kiro-workers", "2.1", "repoA"⟩
        (⟨[⟨7, "t", "b", .opened, keyLabels ⟨"kiro-workers", "2.1", "repoA"⟩, "repoA", 0⟩]⟩ :
          Tracker) :=
  ⟨(runSync_at_most_one_issue .oneWay "repoA" 5 ⟨"kiro-workers", "2.1", "repoA"⟩ ⟨[]⟩ _).1,
   (runSync_at_most_one_issue .oneWay "repoA" 5 ⟨"kiro-workers", "2.1", "repoA"⟩ _ _).2
     (by decide)⟩

/-! ### Issue creation -/

theorem le_foldr_max (l : List Nat) (a : Nat) (h : a ∈ l) : a ≤ l.foldr max 0 := by
  induction l with
  | nil => cases h
  | cons b rest ih =>
    rw [List.foldr_cons]
    rcases List.mem_cons.mp h with rfl | h2
    · exact Nat.le_max_left _ _
    · exact le_trans (ih h2) (Nat.le_max_right _ _)

/-- Freshly assigned issue numbers are strictly larger than every existing
number. -/
theorem nextIssueNumber_gt (T : Tracker) (i : IssueRecord) (hi : i ∈ T.issues) :
    i.number < nextIssueNumber T := by
  rw [nextIssueNumber]
  have : i.number ≤ (T.issues.map IssueRecord.number).foldr max 0 :=
    le_foldr_max _ _ (List.mem_map_of_mem _ hi)
  omega

theorem statePatch_skip (n : Nat) (s : IssueState) (i : IssueRecord)
    (h : i.number ≠ n) : statePatch n s i = i := by
  rw [statePatch, if_neg]
  simpa using h

theorem map_statePatch_id (n : Nat) (s : IssueState) (l : List IssueRecord)
    (h : ∀ i ∈ l, i.number ≠ n) : l.map (statePatch n s) = l := by
  induction l with
  | nil => rfl
  | cons i rest ih =>
    rw [List.map_cons, statePatch_skip n s i (h i (List.mem_cons_self i rest)),
      ih (fun j hj => h j (List.mem_cons_of_mem i hj))]

/-- When no issue carries the task's SyncKey, one pipeline step appends
exactly one fresh issue carrying the key's labels and the templated content,
and leaves the task record untouched. -/
theorem syncStep_creates (mode : SyncMode) (repoId : String) (mt : Nat)
    (T : Tracker) (t : TaskRecord) (h0 : countKey (keyOf repoId t) T = 0) :
    ∃ inew : IssueRecord,
      inew.number = nextIssueNumber T ∧
      inew.labels = keyLabels (keyOf repoId t) ∧
      inew.title = issueTitle t ∧ inew.body = issueBody t ∧
      (syncStep mode repoId mt T t).1.issues = T.issues ++ [inew] ∧
      (syncStep mode repoId mt T t).2.1 = t ∧
      inew.state = statusToState t.status ∧ inew.updatedAt = 0 := by
  have hempty : searchByKey (keyOf repoId t) T = [] := (countKey_zero_iff _ _).mp h0
  have hc : canonicalIssue (searchByKey (keyOf repoId t) T) = none := by
    rw [hempty]
    rfl
  have hnewlabels :
      hasKey (keyOf repoId t) (⟨nextIssueNumber T, issueTitle t, issueBody t, .opened,
        keyLabels (keyOf repoId t), repoId, 0⟩ : IssueRecord) = true :=
    (hasKey_keyLabels_iff _ _ _ rfl).mpr rfl
  have hsearch1 : searchByKey (keyOf repoId t)
      (⟨T.issues ++ [⟨nextIssueNumber T, issueTitle t, issueBody t, .opened,
        keyLabels (keyOf repoId t), repoId, 0⟩]⟩ : Tracker) =
      [⟨nextIssueNumber T, issueTitle t, issueBody t, .opened,
        keyLabels (keyOf repoId t), repoId, 0⟩] := by
    rw [searchByKey_append]
    rw [show searchByKey (keyOf repoId t) (⟨T.issues⟩ : Tracker) =
      searchByKey (keyOf repoId t) T from rfl]
    rw [hempty]
    simp [searchByKey, hnewlabels]
  rw [syncStep]
  dsimp only
  rw [syncTask, hc]
  dsimp only
  rw [reconcileTask, hsearch1]
  rw [show canonicalIssue [(⟨nextIssueNumber T, issueTitle t, issueBody t, .opened,
    keyLabels (keyOf repoId t), repoId, 0⟩ : IssueRecord)] =
    some ⟨nextIssueNumber T, issueTitle t, issueBody t, .opened,
      keyLabels (keyOf repoId t), repoId, 0⟩ from rfl]
  have hskip : ∀ j ∈ T.issues, j.number ≠ nextIssueNumber T :=
    fun j hj => Nat.ne_of_lt (nextIssueNumber_gt T j hj)
  cases mode with
  | oneWay =>
    dsimp only
    split
    · next heq =>
      rw [beq_iff_eq] at heq
      exact ⟨_, rfl, rfl, rfl, rfl, rfl, rfl, heq, rfl⟩
    · refine ⟨⟨nextIssueNumber T, issueTitle t, issueBody t, statusToState t.status,
        keyLabels (keyOf repoId t), repoId, 0⟩, rfl, rfl, rfl, rfl, ?_, rfl, rfl, rfl⟩
      dsimp only [setIssueState]
      rw [List.map_append, map_statePatch_id _ _ _ hskip]
      simp [statePatch]
  | twoWay =>
    dsimp only
    rw [if_neg (by omega : ¬ mt < (0 : Nat))]
    split
    · next heq =>
      rw [beq_iff_eq] at heq
      exact ⟨_, rfl, rfl, rfl, rfl, rfl, rfl, heq, rfl⟩
    · refine ⟨⟨nextIssueNumber T, issueTitle t, issueBody t, statusToState t.status,
        keyLabels (keyOf repoId t), repoId, 0⟩, rfl, rfl, rfl, rfl, ?_, rfl, rfl, rfl⟩
      dsimp only [setIssueState]
      rw [List.map_append, map_statePatch_id _ _ _ hskip]
      simp [statePatch]

theorem runSync_single (mode : SyncMode) (repoId : String) (mt : Nat)
    (T : Tracker) (t : TaskRecord) :
    (runSync mode repoId mt T [t]).1 = (syncStep mode repoId mt T t).1 := rfl

/-- C6: in cross-repo mode the repository identifier is part of the SyncKey,
so the same `(specName, taskId)` present in two different repositories with
no pre-existing issues yields two distinct issues (different numbers), each
found under its own key and each tagged with its own `repo:<identifier>`
label — never one shared issue and never an overwrite of one by the other. -/
theorem crossRepo_separation (mode : SyncMode) (mtA mtB : Nat) (T : Tracker)
    (tA tB : TaskRecord) (rA rB : String)
    (hr : rA ≠ rB)
    (hTask : tA.taskId = tB.taskId) (hSpec : tA.specName = tB.specName)
    (hA0 : countKey (keyOf rA tA) T = 0)
    (hB0 : countKey (keyOf rB tB) T = 0) :
    ∃ iA iB : IssueRecord,
      searchByKey (keyOf rA tA)
        (runSync mode rB mtB (runSync mode rA mtA T [tA]).1 [tB]).1 = [iA] ∧
      searchByKey (keyOf rB tB)
        (runSync mode rB mtB (runSync mode rA mtA T [tA]).1 [tB]).1 = [iB] ∧
      iA.number ≠ iB.number ∧
      ("repo:" ++ rA) ∈ iA.labels ∧ ("repo:" ++ rB) ∈ iB.labels ∧
      iA.title = issueTitle tA ∧ iB.title = issueTitle tB := by
  have hkAB : keyOf rA tA ≠ keyOf rB tB := by
    intro h
    exact hr (congrArg SyncKey.repoIdentifier h)
  obtain ⟨iA, hAnum, hAlab, hAtitle, hAbody, hAissues, -, -, -⟩ :=
    syncStep_creates mode rA mtA T tA hA0
  have hT1 : (runSync mode rA mtA T [tA]).1.issues = T.issues ++ [iA] := by
    rw [runSync_single, hAissues]
  have hAkey : hasKey (keyOf rA tA) iA = true :=
    (hasKey_keyLabels_iff _ _ _ hAlab).mpr rfl
  have hAnotB : hasKey (keyOf rB tB) iA = false := by
    by_contra hcontra
    simp only [Bool.not_eq_false] at hcontra
    exact hkAB ((hasKey_keyLabels_iff _ _ _ hAlab).mp hcontra).symm
  have hB1 : countKey (keyOf rB tB) (runSync mode rA mtA T [tA]).1 = 0 := by
    have heta : (runSync mode rA mtA T [tA]).1 = ⟨T.issues ++ [iA]⟩ := by
      cases hrs : (runSync mode rA mtA T [tA]).1 with
      | mk l => rw [hrs] at hT1; simp at hT1; rw [hT1]
    rw [heta, countKey_append_single, hB0, hAnotB]
    simp
  obtain ⟨iB, hBnum, hBlab, hBtitle, hBbody, hBissues, -, -, -⟩ :=
    syncStep_creates mode rB mtB (runSync mode rA mtA T [tA]).1 tB hB1
  have hT2 : (runSync mode rB mtB (runSync mode rA mtA T [tA]).1 [tB]).1.issues =
      (T.issues ++ [iA]) ++ [iB] := by
    rw [runSync_single, hBissues, hT1]
  have hBkey : hasKey (keyOf rB tB) iB = true :=
    (hasKey_keyLabels_iff _ _ _ hBlab).mpr rfl
  have hBnotA : hasKey (keyOf rA tA) iB = false := by
    by_contra hcontra
    simp only [Bool.not_eq_false] at hcontra
    exact hkAB ((hasKey_keyLabels_iff _ _ _ hBlab).mp hcontra)
  have heta2 : (runSync mode rB mtB (runSync mode rA mtA T [tA]).1 [tB]).1 =
      ⟨(T.issues ++ [iA]) ++ [iB]⟩ := by
    cases hrs : (runSync mode rB mtB (runSync mode rA mtA T [tA]).1 [tB]).1 with
    | mk l =>
      rw [hrs] at hT2
      simp at hT2
      rw [hT2]
      simp
  refine ⟨iA, iB, ?_, ?_, ?_, ?_, ?_, hAtitle, hBtitle⟩
  · rw [heta2, searchByKey_append, searchByKey_append]
    rw [show searchByKey (keyOf rA tA) (⟨T.issues⟩ : Tracker) =
      searchByKey (keyOf rA tA) T from rfl]
    rw [(countKey_zero_iff _ _).mp hA0]
    simp [searchByKey, hAkey, hBnotA]
  · rw [heta2, searchByKey_append, searchByKey_append]
    rw [show searchByKey (keyOf rB tB) (⟨T.issues⟩ : Tracker) =
      searchByKey (keyOf rB tB) T from rfl]
    rw [(countKey_zero_iff _ _).mp hB0]
    simp [searchByKey, hAnotB, hBkey]
  · have hmem : iA ∈ (runSync mode rA mtA T [tA]).1.issues := by
      rw [hT1]
      exact List.mem_append_right _ (List.mem_singleton.mpr rfl)
    have hlt := nextIssueNumber_gt _ iA hmem
    omega
  · rw [hAlab]
    simp [keyLabels, keyOf]
  · rw [hBlab]
    simp [keyLabels, keyOf]

/-- The task record of §8's concrete scenario: `2.1 Create download
utility`, not yet started. -/
def demoTask : TaskRecord :=
  { specName := "kiro-workers", taskId := "2.1", title := "Create download utility",
    description := "", status := .not_started, requirementRefs := [],
    isOptional := false, parentTaskId := none, sourceFile := "tasks.md", sourceLine := 1 }

/-- Witness for C6: task `2.1` synced from `repoA` and from `repoB` against
an empty tracker produces two distinct, separately tagged issues. -/
theorem crossRepo_separation_witness :
    ∃ iA iB : IssueRecord,
      searchByKey (keyOf "repoA" demoTask)
        (runSync .oneWay "repoB" 0 (runSync .oneWay "repoA" 0 ⟨[]⟩ [demoTask]).1
          [demoTask]).1 = [iA] ∧
      searchByKey (keyOf "repoB" demoTask)
        (runSync .oneWay "repoB" 0 (runSync .oneWay "repoA" 0 ⟨[]⟩ [demoTask]).1
          [demoTask]).1 = [iB] ∧
      iA.number ≠ iB.number ∧
      ("repo:" ++ "repoA") ∈ iA.labels ∧ ("repo:" ++ "repoB") ∈ iB.labels ∧
      iA.title = issueTitle demoTask ∧ iB.title = issueTitle demoTask :=
  crossRepo_separation .oneWay 0 0 ⟨[]⟩ demoTask demoTask "repoA" "repoB"
    (by decide) rfl rfl rfl rfl

/-! ### One-way reconciliation -/

theorem contentPatch_self (t : TaskRecord) (i : IssueRecord) :
    contentPatch i.number t i = { i with title := issueTitle t, body := issueBody t } := by
  rw [contentPatch, if_pos]
  exact beq_self_eq_true i.number

theorem statePatch_self (s : IssueState) (i : IssueRecord) :
    statePatch i.number s i = { i with state := s } := by
  rw [statePatch, if_pos]
  exact beq_self_eq_true i.number

/-- When exactly one issue matches the key, the synchronizer updates (at
most) that issue's content in place: same number, same state, no creation. -/
theorem syncTask_existing (repoId : String) (T : Tracker) (t : TaskRecord) (i : IssueRecord)
    (hsearch : searchByKey (keyOf repoId t) T = [i]) :
    ∃ i1 : IssueRecord,
      searchByKey (keyOf repoId t) (syncTask repoId T t).1 = [i1] ∧
      i1.number = i.number ∧ i1.state = i.state ∧ i1.updatedAt = i.updatedAt ∧
      i1.title = issueTitle t ∧ i1.body = issueBody t ∧
      (syncTask repoId T t).1.issues.length = T.issues.length := by
  have hcanon : canonicalIssue (searchByKey (keyOf repoId t) T) = some i := by
    rw [hsearch]
    rfl
  rw [syncTask, hcanon]
  dsimp only
  split
  · next heq =>
    rw [Bool.and_eq_true, beq_iff_eq, beq_iff_eq] at heq
    exact ⟨i, hsearch, rfl, rfl, rfl, heq.1, heq.2, rfl⟩
  · refine ⟨{ i with title := issueTitle t, body := issueBody t }, ?_, rfl, rfl, rfl, rfl, rfl, ?_⟩
    · rw [searchByKey_updateContent, hsearch, List.map_cons, List.map_nil, contentPatch_self]
    · dsimp only [updateIssueContent]
      rw [List.length_map]

/-- When exactly one issue matches the key, one-way reconciliation drives
that issue's state from the task status in place and returns the task record
unchanged. -/
theorem reconcileTask_oneWay_existing (repoId : String) (mt : Nat) (T : Tracker)
    (t : TaskRecord) (i : IssueRecord)
    (hsearch : searchByKey (keyOf repoId t) T = [i]) :
    (reconcileTask .oneWay repoId mt T t).2.1 = t ∧
    ∃ i2 : IssueRecord,
      searchByKey (keyOf repoId t) (reconcileTask .oneWay repoId mt T t).1 = [i2] ∧
      i2.number = i.number ∧ i2.title = i.title ∧ i2.body = i.body ∧
      i2.state = statusToState t.status ∧
      (reconcileTask .oneWay repoId mt T t).1.issues.length = T.issues.length := by
  have hcanon : canonicalIssue (searchByKey (keyOf repoId t) T) = some i := by
    rw [hsearch]
    rfl
  rw [reconcileTask, hcanon]
  dsimp only
  split
  · next heq =>
    rw [beq_iff_eq] at heq
    exact ⟨rfl, i, hsearch, rfl, rfl, rfl, heq, rfl⟩
  · refine ⟨rfl, { i with state := statusToState t.status }, ?_, rfl, rfl, rfl, rfl, ?_⟩
    · rw [searchByKey_setState, hsearch, List.map_cons, List.map_nil, statePatch_self]
    · dsimp only [setIssueState]
      rw [List.length_map]

/-- C7: in one-way mode, when the task's key maps to exactly one issue, the
pipeline step (a) returns the task record unchanged — issue-side changes are
never read back, (b) creates no issue (the issue count is unchanged), and
(c) leaves the SAME issue (same number) in the state determined solely by
the task status: `completed` closes it, `not_started`/`in_progress` opens
it. -/
theorem oneWay_status_drives_state (repoId : String) (mt : Nat) (T : Tracker)
    (t : TaskRecord) (i : IssueRecord)
    (hsearch : searchByKey (keyOf repoId t) T = [i]) :
    (syncStep .oneWay repoId mt T t).2.1 = t ∧
    (syncStep .oneWay repoId mt T t).1.issues.length = T.issues.length ∧
    ∃ i2 : IssueRecord,
      searchByKey (keyOf repoId t) (syncStep .oneWay repoId mt T t).1 = [i2] ∧
      i2.number = i.number ∧
      (t.status = .completed → i2.state = .closed) ∧
      (t.status = .not_started ∨ t.status = .in_progress → i2.state = .opened) := by
  obtain ⟨i1, hs1, hn1, -, -, -, -, hlen1⟩ := syncTask_existing repoId T t i hsearch
  obtain ⟨htask, i2, hs2, hn2, -, -, hstate2, hlen2⟩ :=
    reconcileTask_oneWay_existing repoId mt (syncTask repoId T t).1 t i1 hs1
  refine ⟨htask, ?_, i2, hs2, hn2.trans hn1, ?_, ?_⟩
  · rw [show (syncStep .oneWay repoId mt T t).1 =
      (reconcileTask .oneWay repoId mt (syncTask repoId T t).1 t).1 from rfl]
    rw [hlen2, hlen1]
  · intro hc
    rw [hstate2, hc]
    rfl
  · rintro (hc | hc) <;> (rw [hstate2, hc]; rfl)

/-- The demo task in completed state. -/
def demoTaskDone : TaskRecord :=
  { demoTask with status := .completed }

/-- An open tracker issue number 7 tagged with the demo task's key. -/
def demoIssue : IssueRecord :=
  ⟨7, issueTitle demoTaskDone, issueBody demoTaskDone, .opened,
    keyLabels (keyOf "repoA" demoTaskDone), "repoA", 0⟩

/-- Witness for C7: completing task `2.1` closes the same issue number 7,
creating nothing and leaving the task record untouched. -/
theorem oneWay_status_drives_state_witness :
    (syncStep .oneWay "repoA" 0 ⟨[demoIssue]⟩ demoTaskDone).2.1 = demoTaskDone ∧
    (syncStep .oneWay "repoA" 0 ⟨[demoIssue]⟩ demoTaskDone).1.issues.length =
      (⟨[demoIssue]⟩ : Tracker).issues.length ∧
    ∃ i2 : IssueRecord,
      searchByKey (keyOf "repoA" demoTaskDone)
        (syncStep .oneWay "repoA" 0 ⟨[demoIssue]⟩ demoTaskDone).1 = [i2] ∧
      i2.number = demoIssue.number ∧
      (demoTaskDone.status = .completed → i2.state = .closed) ∧
      (demoTaskDone.status = .not_started ∨ demoTaskDone.status = .in_progress →
        i2.state = .opened) :=
  oneWay_status_drives_state "repoA" 0 ⟨[demoIssue]⟩ demoTaskDone demoIssue (by decide)

/-! ### Idempotence infrastructure -/

/-- All the data a second pipeline pass would compare is already in place
for task `t`: its canonical issue exists, carries the desired content, and
state/status are consistent per the mode's policy. -/
def settled (mode : SyncMode) (repoId : String) (mt : Nat)
    (t : TaskRecord) (T : Tracker) : Prop :=
  ∃ i : IssueRecord,
    canonicalIssue (searchByKey (keyOf repoId t) T) = some i ∧
    i.title = issueTitle t ∧ i.body = issueBody t ∧
    (match mode with
     | .oneWay => i.state = statusToState t.status
     | .twoWay =>
       if mt < i.updatedAt then t.status = stateToStatus i.state
       else i.state = statusToState t.status)

/-- No issue of the tracker is tagged with two distinct keys among `k1, k2`:
the sane state the engine itself always produces, since created issues carry
exactly one key's labels. -/
def noSharedKey (k1 k2 : SyncKey) (T : Tracker) : Prop :=
  ∀ i ∈ T.issues, hasKey k1 i = true → hasKey k2 i = true → k1 = k2

/-- `noSharedKey` over all pairs of keys of the run's tasks. -/
def pairwiseSep (repoId : String) (ts : List TaskRecord) (T : Tracker) : Prop :=
  ∀ t1 ∈ ts, ∀ t2 ∈ ts, noSharedKey (keyOf repoId t1) (keyOf repoId t2) T

/-- The tracker's issue numbers are pairwise distinct (a tracker
guarantee). -/
def numbersNodup (T : Tracker) : Prop :=
  (T.issues.map IssueRecord.number).Nodup

theorem map_eq_self_of_forall {α : Type} (l : List α) (f : α → α)
    (h : ∀ x ∈ l, f x = x) : l.map f = l := by
  induction l with
  | nil => rfl
  | cons a rest ih =>
    rw [List.map_cons, h a (List.mem_cons_self a rest),
      ih (fun x hx => h x (List.mem_cons_of_mem a hx))]

theorem contentPatch_skip (n : Nat) (t : TaskRecord) (i : IssueRecord)
    (h : i.number ≠ n) : contentPatch n t i = i := by
  rw [contentPatch, if_neg]
  simpa using h

theorem number_inj_of_nodup (T : Tracker) (h : numbersNodup T) (x y : IssueRecord)
    (hx : x ∈ T.issues) (hy : y ∈ T.issues) (hn : x.number = y.number) : x = y :=
  List.inj_on_of_nodup_map h hx hy hn

/-- The synchronizer step leaves the tracker alone, patches one existing
key-matching issue's content in place, or appends one fresh issue. -/
theorem syncTask_shape (repoId : String) (T : Tracker) (t : TaskRecord) :
    (syncTask repoId T t).1 = T ∨
    (∃ n, (∃ j ∈ T.issues, hasKey (keyOf repoId t) j = true ∧ j.number = n) ∧
      (syncTask repoId T t).1 = updateIssueContent n t T) ∨
    (syncTask repoId T t).1 =
      ⟨T.issues ++ [⟨nextIssueNumber T, issueTitle t, issueBody t, .opened,
        keyLabels (keyOf repoId t), repoId, 0⟩]⟩ := by
  rw [syncTask]
  cases hc : canonicalIssue (searchByKey (keyOf repoId t) T) with
  | none => right; right; rfl
  | some i =>
    have hmem := canonicalIssue_mem _ _ hc
    rw [searchByKey, List.mem_filter] at hmem
    dsimp only
    split
    · left; rfl
    · right; left
      exact ⟨i.number, ⟨i, hmem.1, hmem.2, rfl⟩, rfl⟩

/-- The reconciler step leaves the tracker alone or patches one existing
key-matching issue's state in place. -/
theorem reconcileTask_shape (mode : SyncMode) (repoId : String) (mt : Nat)
    (T : Tracker) (t : TaskRecord) :
    (reconcileTask mode repoId mt T t).1 = T ∨
    (∃ n, (∃ j ∈ T.issues, hasKey (keyOf repoId t) j = true ∧ j.number = n) ∧
      (reconcileTask mode repoId mt T t).1 =
        setIssueState n (statusToState t.status) T) := by
  rw [reconcileTask]
  cases hc : canonicalIssue (searchByKey (keyOf repoId t) T) with
  | none => left; rfl
  | some i =>
    have hmem := canonicalIssue_mem _ _ hc
    rw [searchByKey, List.mem_filter] at hmem
    cases mode with
    | oneWay =>
      dsimp only
      split
      · left; rfl
      · right; exact ⟨i.number, ⟨i, hmem.1, hmem.2, rfl⟩, rfl⟩
    | twoWay =>
      dsimp only
      split
      · split
        · left; rfl
        · left; rfl
      · split
        · left; rfl
        · right; exact ⟨i.number, ⟨i, hmem.1, hmem.2, rfl⟩, rfl⟩

/-- The reconciler returns the task unchanged except possibly for its
status field. -/
theorem reconcileTask_task_shape (mode : SyncMode) (repoId : String) (mt : Nat)
    (T : Tracker) (t : TaskRecord) :
    (reconcileTask mode repoId mt T t).2.1 = t ∨
    ∃ s, (reconcileTask mode repoId mt T t).2.1 = { t with status := s } := by
  rw [reconcileTask]
  cases hc : canonicalIssue (searchByKey (keyOf repoId t) T) with
  | none => left; rfl
  | some i =>
    cases mode with
    | oneWay =>
      dsimp only
      split
      · left; rfl
      · left; rfl
    | twoWay =>
      dsimp only
      split
      · split
        · left; rfl
        · right; exact ⟨stateToStatus i.state, rfl⟩
      · split
        · left; rfl
        · left; rfl

/-! ### Invariant preservation -/

theorem numbers_updateContent (n : Nat) (t : TaskRecord) (T : Tracker) :
    (updateIssueContent n t T).issues.map IssueRecord.number =
      T.issues.map IssueRecord.number := by
  dsimp only [updateIssueContent]
  rw [List.map_map]
  exact List.map_congr_left (fun i _ => contentPatch_number n t i)

theorem numbers_setState (n : Nat) (s : IssueState) (T : Tracker) :
    (setIssueState n s T).issues.map IssueRecord.number =
      T.issues.map IssueRecord.number := by
  dsimp only [setIssueState]
  rw [List.map_map]
  exact List.map_congr_left (fun i _ => statePatch_number n s i)

theorem numbersNodup_append_fresh (T : Tracker) (j : IssueRecord)
    (hj : j.number = nextIssueNumber T) (h : numbersNodup T) :
    numbersNodup ⟨T.issues ++ [j]⟩ := by
  rw [numbersNodup, List.map_append, List.map_singleton]
  rw [List.nodup_append]
  refine ⟨h, List.nodup_singleton _, ?_⟩
  intro a ha hb
  rw [List.mem_singleton] at hb
  subst hb
  rw [List.mem_map] at ha
  obtain ⟨x, hx, hxa⟩ := ha
  have := nextIssueNumber_gt T x hx
  omega

theorem numbersNodup_syncTask (repoId : String) (T : Tracker) (t : TaskRecord)
    (h : numbersNodup T) : numbersNodup (syncTask repoId T t).1 := by
  rcases syncTask_shape repoId T t with heq | ⟨n, -, heq⟩ | heq
  · rw [heq]; exact h
  · rw [heq, numbersNodup, numbers_updateContent]; exact h
  · rw [heq]; exact numbersNodup_append_fresh T _ rfl h

theorem numbersNodup_reconcileTask (mode : SyncMode) (repoId : String) (mt : Nat)
    (T : Tracker) (t : TaskRecord) (h : numbersNodup T) :
    numbersNodup (reconcileTask mode repoId mt T t).1 := by
  rcases reconcileTask_shape mode repoId mt T t with heq | ⟨n, -, heq⟩
  · rw [heq]; exact h
  · rw [heq, numbersNodup, numbers_setState]; exact h

theorem numbersNodup_syncStep (mode : SyncMode) (repoId : String) (mt : Nat)
    (T : Tracker) (t : TaskRecord) (h : numbersNodup T) :
    numbersNodup (syncStep mode repoId mt T t).1 :=
  numbersNodup_reconcileTask mode repoId mt _ t (numbersNodup_syncTask repoId T t h)

theorem noSharedKey_updateContent (k1 k2 : SyncKey) (n : Nat) (t : TaskRecord)
    (T : Tracker) (h : noSharedKey k1 k2 T) :
    noSharedKey k1 k2 (updateIssueContent n t T) := by
  intro i hi h1 h2
  dsimp only [updateIssueContent] at hi
  rw [List.mem_map] at hi
  obtain ⟨j, hj, rfl⟩ := hi
  rw [hasKey_of_labels_eq k1 j _ (contentPatch_labels n t j)] at h1
  rw [hasKey_of_labels_eq k2 j _ (contentPatch_labels n t j)] at h2
  exact h j hj h1 h2

theorem noSharedKey_setState (k1 k2 : SyncKey) (n : Nat) (s : IssueState)
    (T : Tracker) (h : noSharedKey k1 k2 T) :
    noSharedKey k1 k2 (setIssueState n s T) := by
  intro i hi h1 h2
  dsimp only [setIssueState] at hi
  rw [List.mem_map] at hi
  obtain ⟨j, hj, rfl⟩ := hi
  rw [hasKey_of_labels_eq k1 j _ (statePatch_labels n s j)] at h1
  rw [hasKey_of_labels_eq k2 j _ (statePatch_labels n s j)] at h2
  exact h j hj h1 h2

theorem noSharedKey_append_keyed (k1 k2 k : SyncKey) (T : Tracker) (j : IssueRecord)
    (hj : j.labels = keyLabels k) (h : noSharedKey k1 k2 T) :
    noSharedKey k1 k2 ⟨T.issues ++ [j]⟩ := by
  intro i hi h1 h2
  rw [List.mem_append, List.mem_singleton] at hi
  rcases hi with hi | rfl
  · exact h i hi h1 h2
  · rw [(hasKey_keyLabels_iff k1 k i hj).mp h1, (hasKey_keyLabels_iff k2 k i hj).mp h2]

theorem noSharedKey_syncTask (k1 k2 : SyncKey) (repoId : String) (T : Tracker)
    (t : TaskRecord) (h : noSharedKey k1 k2 T) :
    noSharedKey k1 k2 (syncTask repoId T t).1 := by
  rcases syncTask_shape repoId T t with heq | ⟨n, -, heq⟩ | heq
  · rw [heq]; exact h
  · rw [heq]; exact noSharedKey_updateContent k1 k2 n t T h
  · rw [heq]; exact noSharedKey_append_keyed k1 k2 (keyOf repoId t) T _ rfl h

theorem noSharedKey_reconcileTask (k1 k2 : SyncKey) (mode : SyncMode) (repoId : String)
    (mt : Nat) (T : Tracker) (t : TaskRecord) (h : noSharedKey k1 k2 T) :
    noSharedKey k1 k2 (reconcileTask mode repoId mt T t).1 := by
  rcases reconcileTask_shape mode repoId mt T t with heq | ⟨n, -, heq⟩
  · rw [heq]; exact h
  · rw [heq]; exact noSharedKey_setState k1 k2 n _ T h

theorem noSharedKey_syncStep (k1 k2 : SyncKey) (mode : SyncMode) (repoId : String)
    (mt : Nat) (T : Tracker) (t : TaskRecord) (h : noSharedKey k1 k2 T) :
    noSharedKey k1 k2 (syncStep mode repoId mt T t).1 :=
  noSharedKey_reconcileTask k1 k2 mode repoId mt _ t
    (noSharedKey_syncTask k1 k2 repoId T t h)

/-! ### Frame: a step over one key does not disturb other keys -/

theorem searchByKey_updateContent_frame (k : SyncKey) (repoId : String) (n : Nat)
    (t : TaskRecord) (T : Tracker)
    (hk : k ≠ keyOf repoId t) (hnodup : numbersNodup T)
    (hns : noSharedKey k (keyOf repoId t) T)
    (hj : ∃ j ∈ T.issues, hasKey (keyOf repoId t) j = true ∧ j.number = n) :
    searchByKey k (updateIssueContent n t T) = searchByKey k T := by
  obtain ⟨j, hjmem, hjkey, hjn⟩ := hj
  rw [searchByKey_updateContent]
  apply map_eq_self_of_forall
  intro x hx
  rw [searchByKey, List.mem_filter] at hx
  apply contentPatch_skip
  intro hxn
  have hxj : x = j := number_inj_of_nodup T hnodup x j hx.1 hjmem (hxn.trans hjn.symm)
  exact hk (hns x hx.1 hx.2 (hxj ▸ hjkey))

theorem searchByKey_setState_frame (k : SyncKey) (repoId : String) (n : Nat)
    (s : IssueState) (t : TaskRecord) (T : Tracker)
    (hk : k ≠ keyOf repoId t) (hnodup : numbersNodup T)
    (hns : noSharedKey k (keyOf repoId t) T)
    (hj : ∃ j ∈ T.issues, hasKey (keyOf repoId t) j = true ∧ j.number = n) :
    searchByKey k (setIssueState n s T) = searchByKey k T := by
  obtain ⟨j, hjmem, hjkey, hjn⟩ := hj
  rw [searchByKey_setState]
  apply map_eq_self_of_forall
  intro x hx
  rw [searchByKey, List.mem_filter] at hx
  apply statePatch_skip
  intro hxn
  have hxj : x = j := number_inj_of_nodup T hnodup x j hx.1 hjmem (hxn.trans hjn.symm)
  exact hk (hns x hx.1 hx.2 (hxj ▸ hjkey))

theorem syncTask_frame (repoId : String) (T : Tracker) (t : TaskRecord) (k : SyncKey)
    (hk : k ≠ keyOf repoId t) (hnodup : numbersNodup T)
    (hns : noSharedKey k (keyOf repoId t) T) :
    searchByKey k (syncTask repoId T t).1 = searchByKey k T := by
  rcases syncTask_shape repoId T t with heq | ⟨n, hj, heq⟩ | heq
  · rw [heq]
  · rw [heq]
    exact searchByKey_updateContent_frame k repoId n t T hk hnodup hns hj
  · rw [heq, searchByKey_append,
      show searchByKey k (⟨T.issues⟩ : Tracker) = searchByKey k T from rfl]
    have : hasKey k (⟨nextIssueNumber T, issueTitle t, issueBody t, .opened,
        keyLabels (keyOf repoId t), repoId, 0⟩ : IssueRecord) = false := by
      by_contra hcontra
      simp only [Bool.not_eq_false] at hcontra
      exact hk ((hasKey_keyLabels_iff _ _ _ rfl).mp hcontra)
    simp [searchByKey, this]

theorem reconcileTask_frame (mode : SyncMode) (repoId : String) (mt : Nat)
    (T : Tracker) (t : TaskRecord) (k : SyncKey)
    (hk : k ≠ keyOf repoId t) (hnodup : numbersNodup T)
    (hns : noSharedKey k (keyOf repoId t) T) :
    searchByKey k (reconcileTask mode repoId mt T t).1 = searchByKey k T := by
  rcases reconcileTask_shape mode repoId mt T t with heq | ⟨n, hj, heq⟩
  · rw [heq]
  · rw [heq]
    exact searchByKey_setState_frame k repoId n _ t T hk hnodup hns hj

theorem syncStep_frame (mode : SyncMode) (repoId : String) (mt : Nat)
    (T : Tracker) (t : TaskRecord) (k : SyncKey)
    (hk : k ≠ keyOf repoId t) (hnodup : numbersNodup T)
    (hns : noSharedKey k (keyOf repoId t) T) :
    searchByKey k (syncStep mode repoId mt T t).1 = searchByKey k T := by
  rw [show (syncStep mode repoId mt T t).1 =
    (reconcileTask mode repoId mt (syncTask repoId T t).1 t).1 from rfl]
  rw [reconcileTask_frame mode repoId mt _ t k hk
    (numbersNodup_syncTask repoId T t hnodup)
    (noSharedKey_syncTask k (keyOf repoId t) repoId T t hns)]
  exact syncTask_frame repoId T t k hk hnodup hns

/-! ### Every step settles its task; a settled task's step is a no-op -/

theorem syncTask_canonical (repoId : String) (T : Tracker) (t : TaskRecord) (i : IssueRecord)
    (hcanon : canonicalIssue (searchByKey (keyOf repoId t) T) = some i) :
    ∃ i1 : IssueRecord,
      canonicalIssue (searchByKey (keyOf repoId t) (syncTask repoId T t).1) = some i1 ∧
      i1.state = i.state ∧ i1.updatedAt = i.updatedAt ∧
      i1.title = issueTitle t ∧ i1.body = issueBody t := by
  rw [syncTask, hcanon]
  dsimp only
  split
  · next heq =>
    rw [Bool.and_eq_true, beq_iff_eq, beq_iff_eq] at heq
    exact ⟨i, hcanon, rfl, rfl, heq.1, heq.2⟩
  · refine ⟨{ i with title := issueTitle t, body := issueBody t }, ?_, rfl, rfl, rfl, rfl⟩
    rw [searchByKey_updateContent, canonicalIssue_map _ (contentPatch_number _ _), hcanon,
      Option.map_some', contentPatch_self]

theorem reconcileTask_settles (mode : SyncMode) (repoId : String) (mt : Nat)
    (T : Tracker) (t : TaskRecord) (i : IssueRecord)
    (hcanon : canonicalIssue (searchByKey (keyOf repoId t) T) = some i)
    (htit : i.title = issueTitle t) (hbod : i.body = issueBody t) :
    settled mode repoId mt (reconcileTask mode repoId mt T t).2.1
      (reconcileTask mode repoId mt T t).1 := by
  rw [reconcileTask, hcanon]
  cases mode with
  | oneWay =>
    dsimp only
    split
    · next hstate =>
      rw [beq_iff_eq] at hstate
      exact ⟨i, hcanon, htit, hbod, hstate⟩
    · refine ⟨{ i with state := statusToState t.status }, ?_, htit, hbod, rfl⟩
      rw [searchByKey_setState, canonicalIssue_map _ (statePatch_number _ _), hcanon,
        Option.map_some', statePatch_self]
  | twoWay =>
    dsimp only
    split
    · next hmt =>
      split
      · next hts =>
        rw [beq_iff_eq] at hts
        refine ⟨i, hcanon, htit, hbod, ?_⟩
        rw [if_pos hmt]
        exact hts
      · refine ⟨i, hcanon, htit, hbod, ?_⟩
        rw [if_pos hmt]
    · next hmt =>
      split
      · next hstate =>
        rw [beq_iff_eq] at hstate
        refine ⟨i, hcanon, htit, hbod, ?_⟩
        rw [if_neg hmt]
        exact hstate
      · refine ⟨{ i with state := statusToState t.status }, ?_, htit, hbod, ?_⟩
        · rw [searchByKey_setState, canonicalIssue_map _ (statePatch_number _ _), hcanon,
            Option.map_some', statePatch_self]
        · rw [if_neg hmt]

/-- Every pipeline step leaves its own task settled: the canonical issue of
the (possibly status-updated) task exists with the desired content and a
mode-consistent state. -/
theorem syncStep_settles (mode : SyncMode) (repoId : String) (mt : Nat)
    (T : Tracker) (t : TaskRecord) :
    settled mode repoId mt (syncStep mode repoId mt T t).2.1
      (syncStep mode repoId mt T t).1 := by
  cases hc : canonicalIssue (searchByKey (keyOf repoId t) T) with
  | some i =>
    obtain ⟨i1, hc1, -, -, ht1, hb1⟩ := syncTask_canonical repoId T t i hc
    exact reconcileTask_settles mode repoId mt (syncTask repoId T t).1 t i1 hc1 ht1 hb1
  | none =>
    have h0 : countKey (keyOf repoId t) T = 0 := by
      rw [countKey_zero_iff]
      exact (canonicalIssue_eq_none_iff _).mp hc
    obtain ⟨inew, hnum, hlab, htit, hbod, hiss, htask, hstate, hupd⟩ :=
      syncStep_creates mode repoId mt T t h0
    rw [htask]
    have hkey : hasKey (keyOf repoId t) inew = true :=
      (hasKey_keyLabels_iff _ _ _ hlab).mpr rfl
    have heta : (syncStep mode repoId mt T t).1 = ⟨T.issues ++ [inew]⟩ := by
      cases hrs : (syncStep mode repoId mt T t).1 with
      | mk l =>
        rw [hrs] at hiss
        dsimp at hiss
        rw [hiss]
    have hsearch : searchByKey (keyOf repoId t) (syncStep mode repoId mt T t).1 = [inew] := by
      rw [heta, searchByKey_append,
        show searchByKey (keyOf repoId t) (⟨T.issues⟩ : Tracker) =
          searchByKey (keyOf repoId t) T from rfl,
        (countKey_zero_iff _ _).mp h0]
      simp [searchByKey, hkey]
    refine ⟨inew, by rw [hsearch]; rfl, htit, hbod, ?_⟩
    cases mode with
    | oneWay => exact hstate
    | twoWay =>
      rw [if_neg (by rw [hupd]; omega)]
      exact hstate

/-- A settled task's pipeline step performs no write and changes nothing. -/
theorem syncStep_noop_of_settled (mode : SyncMode) (repoId : String) (mt : Nat)
    (T : Tracker) (t : TaskRecord) (h : settled mode repoId mt t T) :
    syncStep mode repoId mt T t = (T, t, []) := by
  obtain ⟨i, hc, htit, hbod, hst⟩ := h
  have hsync : syncTask repoId T t = (T, []) := by
    rw [syncTask, hc]
    dsimp only
    rw [if_pos (by
      rw [Bool.and_eq_true, beq_iff_eq, beq_iff_eq]
      exact ⟨htit, hbod⟩)]
  have hrec : reconcileTask mode repoId mt T t = (T, t, []) := by
    rw [reconcileTask, hc]
    cases mode with
    | oneWay =>
      dsimp only
      rw [if_pos (by rw [beq_iff_eq]; exact hst)]
    | twoWay =>
      dsimp only
      by_cases hmt : mt < i.updatedAt
      · have hst' := hst
        rw [if_pos hmt] at hst'
        rw [if_pos hmt, if_pos (by rw [beq_iff_eq]; exact hst')]
      · have hst' := hst
        rw [if_neg hmt] at hst'
        rw [if_neg hmt, if_pos (by rw [beq_iff_eq]; exact hst')]
  rw [syncStep]
  rw [hsync]
  rw [hrec]
  rfl

theorem settled_of_search_eq (mode : SyncMode) (repoId : String) (mt : Nat)
    (u : TaskRecord) (T1 T2 : Tracker)
    (h : settled mode repoId mt u T1)
    (heq : searchByKey (keyOf repoId u) T2 = searchByKey (keyOf repoId u) T1) :
    settled mode repoId mt u T2 := by
  obtain ⟨i, hc, h1, h2, h3⟩ := h
  exact ⟨i, by rw [heq]; exact hc, h1, h2, h3⟩

theorem syncStep_task_key (mode : SyncMode) (repoId : String) (mt : Nat)
    (T : Tracker) (t : TaskRecord) :
    keyOf repoId (syncStep mode repoId mt T t).2.1 = keyOf repoId t := by
  rw [show (syncStep mode repoId mt T t).2.1 =
    (reconcileTask mode repoId mt (syncTask repoId T t).1 t).2.1 from rfl]
  rcases reconcileTask_task_shape mode repoId mt (syncTask repoId T t).1 t with
    heq | ⟨s, heq⟩
  · rw [heq]
  · rw [heq]
    rfl

theorem runSync_frame (mode : SyncMode) (repoId : String) (mt : Nat) :
    ∀ (ts : List TaskRecord) (T : Tracker) (k : SyncKey),
      numbersNodup T →
      (∀ u ∈ ts, keyOf repoId u ≠ k) →
      (∀ u ∈ ts, noSharedKey k (keyOf repoId u) T) →
      searchByKey k (runSync mode repoId mt T ts).1 = searchByKey k T := by
  intro ts
  induction ts with
  | nil =>
    intro T k _ _ _
    rfl
  | cons t ts ih =>
    intro T k hnodup hne hns
    rw [runSync]
    dsimp only
    rw [ih (syncStep mode repoId mt T t).1 k
      (numbersNodup_syncStep mode repoId mt T t hnodup)
      (fun u hu => hne u (List.mem_cons_of_mem t hu))
      (fun u hu => noSharedKey_syncStep k (keyOf repoId u) mode repoId mt T t
        (hns u (List.mem_cons_of_mem t hu)))]
    exact syncStep_frame mode repoId mt T t k
      (Ne.symm (hne t (List.mem_cons_self t ts))) hnodup
      (hns t (List.mem_cons_self t ts))

/-- After one run, every output task is settled in the final tracker. -/
theorem runSync_settles (mode : SyncMode) (repoId : String) (mt : Nat) :
    ∀ (ts : List TaskRecord) (T : Tracker),
      numbersNodup T →
      pairwiseSep repoId ts T →
      (ts.map (keyOf repoId)).Nodup →
      numbersNodup (runSync mode repoId mt T ts).1 ∧
      ∀ u ∈ (runSync mode repoId mt T ts).2.1,
        settled mode repoId mt u (runSync mode repoId mt T ts).1 := by
  intro ts
  induction ts with
  | nil =>
    intro T h _ _
    exact ⟨h, fun u hu => absurd hu (List.not_mem_nil u)⟩
  | cons t ts ih =>
    intro T hnodup hsep hkeys
    rw [runSync]
    dsimp only
    have hnodup1 := numbersNodup_syncStep mode repoId mt T t hnodup
    have hsep1 : pairwiseSep repoId ts (syncStep mode repoId mt T t).1 := by
      intro t1 h1 t2 h2
      exact noSharedKey_syncStep _ _ mode repoId mt T t
        (hsep t1 (List.mem_cons_of_mem t h1) t2 (List.mem_cons_of_mem t h2))
    have hkeys1 : (ts.map (keyOf repoId)).Nodup := by
      rw [List.map_cons, List.nodup_cons] at hkeys
      exact hkeys.2
    have hkne : ∀ u ∈ ts, keyOf repoId u ≠ keyOf repoId t := by
      rw [List.map_cons, List.nodup_cons] at hkeys
      intro u hu heq
      exact hkeys.1 (heq ▸ List.mem_map_of_mem (keyOf repoId) hu)
    obtain ⟨ihnodup, ihsettled⟩ := ih (syncStep mode repoId mt T t).1 hnodup1 hsep1 hkeys1
    refine ⟨ihnodup, ?_⟩
    intro u hu
    rw [List.mem_cons] at hu
    rcases hu with rfl | hu
    · have hset := syncStep_settles mode repoId mt T t
      have hkey_eq := syncStep_task_key mode repoId mt T t
      have hframe := runSync_frame mode repoId mt ts (syncStep mode repoId mt T t).1
        (keyOf repoId t) hnodup1 hkne
        (fun v hv => noSharedKey_syncStep _ _ mode repoId mt T t
          (hsep t (List.mem_cons_self t ts) v (List.mem_cons_of_mem t hv)))
      refine settled_of_search_eq mode repoId mt _ _ _ hset ?_
      rw [hkey_eq]
      exact hframe
    · exact ihsettled u hu

theorem runSync_noop (mode : SyncMode) (repoId : String) (mt : Nat) :
    ∀ (ts : List TaskRecord) (T : Tracker),
      (∀ u ∈ ts, settled mode repoId mt u T) →
      runSync mode repoId mt T ts = (T, ts, []) := by
  intro ts
  induction ts with
  | nil =>
    intro T _
    rfl
  | cons t ts ih =>
    intro T h
    rw [runSync]
    rw [syncStep_noop_of_settled mode repoId mt T t (h t (List.mem_cons_self t ts))]
    rw [ih T (fun u hu => h u (List.mem_cons_of_mem t hu))]
    rfl

/-- C2: a second synchronizer-plus-reconciler run immediately after a first
one — same task list (as rewritten by the first run), no intervening remote
change — performs zero writes and changes neither the tracker nor the task
records.  Preconditions: tracker issue numbers are unique, no single issue is
tagged with two different keys of the run, and the run's task keys are
distinct (the data-model invariant that `taskId`s are unique per spec). -/
theorem runSync_idempotent (mode : SyncMode) (repoId : String) (mt : Nat)
    (T : Tracker) (ts : List TaskRecord)
    (hnodup : numbersNodup T) (hsep : pairwiseSep repoId ts T)
    (hkeys : (ts.map (keyOf repoId)).Nodup) :
    runSync mode repoId mt (runSync mode repoId mt T ts).1
        (runSync mode repoId mt T ts).2.1 =
      ((runSync mode repoId mt T ts).1, (runSync mode repoId mt T ts).2.1, []) := by
  obtain ⟨-, hsettled⟩ := runSync_settles mode repoId mt ts T hnodup hsep hkeys
  exact runSync_noop mode repoId mt _ _ hsettled

/-- Witness for C2: syncing the demo task against an empty tracker and then
re-running produces zero writes and no changes. -/
theorem runSync_idempotent_witness :
    runSync .oneWay "repoA" 0 (runSync .oneWay "repoA" 0 ⟨[]⟩ [demoTask]).1
        (runSync .oneWay "repoA" 0 ⟨[]⟩ [demoTask]).2.1 =
      ((runSync .oneWay "repoA" 0 ⟨[]⟩ [demoTask]).1,
       (runSync .oneWay "repoA" 0 ⟨[]⟩ [demoTask]).2.1, []) :=
  runSync_idempotent .oneWay "repoA" 0 ⟨[]⟩ [demoTask]
    (by simp [numbersNodup])
    (by intro t1 _ t2 _ i hi _ _; exact absurd hi (List.not_mem_nil i))
    (by simp)

end KiroWorkers
